import Mathlib

/-!
# Verification development for the open-term workspace core

Shallow embedding of the client-side orchestration core of the open-term
multi-protocol remote-access workspace (TypeScript/React/zustand sources):

* the tab registry (`useTerminalStore`, `src/stores/ftpStore.ts` — the
  five-kind variant with `tabs`/`ftpTabs`/`sftpTabs`/`vncTabs`/`rdpTabs`);
* the SFTP browsing store (`useSftpStore`) with its navigation, mutation and
  transfer-tracking actions;
* the local-files store (`useLocalStore`) with `navigateUp`;
* the `FileTree` view sort.

Asynchronous backend calls (`invoke`) are modelled by explicit gateway
oracles (`Except`-valued functions) and every store action additionally
returns the list of gateway calls it issued and the exception it let
propagate to its caller (if any), so that "no backend call is made" and
"the failure never escapes" are statable properties.
-/

namespace OpenTerm

/-! ## Data model (from `src/App.tsx` type declarations) -/

/-- `FileType` from the source: `"File" | "Directory" | "Symlink" | "Other"`. -/
inductive FileType where
  | File
  | Directory
  | Symlink
  | Other
  deriving DecidableEq, Repr

/-- `FileEntry` from the source. Numbers are modelled as `Nat`
(sizes/timestamps/permission bits are non-negative integers in the backend). -/
structure FileEntry where
  name : String
  path : String
  file_type : FileType
  size : Nat
  modified : Option Nat
  permissions : Option Nat
  deriving DecidableEq, Repr

/-- `TransferStatus` from the source:
`"Pending" | "InProgress" | "Completed" | { Failed: string } | "Cancelled"`. -/
inductive TransferStatus where
  | Pending
  | InProgress
  | Completed
  | Failed (reason : String)
  | Cancelled
  deriving DecidableEq, Repr

/-- `TransferProgress` from the source. -/
structure TransferProgress where
  id : String
  filename : String
  local_path : String
  remote_path : String
  is_upload : Bool
  total_bytes : Nat
  transferred_bytes : Nat
  status : TransferStatus
  deriving DecidableEq, Repr

/-- `SessionType` from the source (payloads kept; optional fields are `Option`). -/
inductive SessionType where
  | Local
  | Ssh (host : String) (port : Nat) (username : String)
  | Ftp (host : String) (port : Nat) (username : Option String)
  | Vnc (host : String) (port : Nat)
  | Rdp (host : String) (port : Nat) (username : String)
  deriving DecidableEq, Repr

/-- `SessionInfo` from the source. -/
structure SessionInfo where
  id : String
  session_type : SessionType
  title : String
  deriving DecidableEq, Repr

/-- `TerminalTab` from the source. -/
structure TerminalTab where
  id : String
  title : String
  sessionInfo : SessionInfo
  deriving DecidableEq, Repr

/-- `FtpTab` from the source. -/
structure FtpTab where
  id : String
  title : String
  host : String
  connectionName : Option String := none
  connectionId : Option String := none
  deriving DecidableEq, Repr

/-- `SftpTab` from the source. -/
structure SftpTab where
  id : String
  title : String
  sessionId : String
  host : String
  connectionName : Option String := none
  connectionId : Option String := none
  deriving DecidableEq, Repr

/-- `VncTab` from the source. -/
structure VncTab where
  id : String
  title : String
  host : String
  width : Nat
  height : Nat
  connectionName : Option String := none
  connectionId : Option String := none
  deriving DecidableEq, Repr

/-- `RdpTab` from the source. -/
structure RdpTab where
  id : String
  title : String
  host : String
  width : Nat
  height : Nat
  connectionName : Option String := none
  connectionId : Option String := none
  deriving DecidableEq, Repr

/-! ## JavaScript array-operation helpers

`Array.prototype.findIndex` returns `-1` when no element matches, and
`arr[i]?.id ?? null` yields `null` both for a negative index and for an
index past the end; these are modelled exactly. -/

/-- JS `findIndex`: index of the first match, `-1` when none. -/
def jsFindIndex {α : Type} (p : α → Bool) (l : List α) : Int :=
  match l.findIdx? p with
  | some i => (i : Int)
  | none => -1

/-- JS `arr[i]` for an `Int` index: `undefined` (here `none`) when out of
range, including negative indices. -/
def jsIndex {α : Type} (l : List α) (i : Int) : Option α :=
  if 0 ≤ i then l[i.toNat]? else none

end OpenTerm

namespace OpenTerm.TabsStore

/-! ## Tab registry (`useTerminalStore`, five-kind variant of
`src/stores/ftpStore.ts`) -/

/-- The zustand store state: five parallel tab collections plus the single
active-tab identifier. -/
structure TerminalState where
  tabs : List TerminalTab
  ftpTabs : List FtpTab
  sftpTabs : List SftpTab
  vncTabs : List VncTab
  rdpTabs : List RdpTab
  activeTabId : Option String
  deriving DecidableEq, Repr

/-- Initial store state: all collections empty, no active tab. -/
def initialTerminalState : TerminalState :=
  { tabs := [], ftpTabs := [], sftpTabs := [], vncTabs := [], rdpTabs := []
    activeTabId := none }

/-- `createTerminal`: the backend returns a `SessionInfo`; a new tab built
from it is appended and becomes active. The function also returns the new
tab's id, as the source does. (The `invoke("create_terminal")` backend call
itself supplies `sessionInfo` and is the oracle argument here.) -/
def createTerminal (sessionInfo : SessionInfo) (s : TerminalState) :
    TerminalState × String :=
  let newTab : TerminalTab :=
    { id := sessionInfo.id, title := sessionInfo.title, sessionInfo := sessionInfo }
  ({ s with tabs := s.tabs ++ [newTab], activeTabId := some newTab.id }, newTab.id)

/-- `addFtpTab`: append and activate. -/
def addFtpTab (ftpTab : FtpTab) (s : TerminalState) : TerminalState :=
  { s with ftpTabs := s.ftpTabs ++ [ftpTab], activeTabId := some ftpTab.id }

/-- `addSftpTab`: append and activate. -/
def addSftpTab (sftpTab : SftpTab) (s : TerminalState) : TerminalState :=
  { s with sftpTabs := s.sftpTabs ++ [sftpTab], activeTabId := some sftpTab.id }

/-- `addVncTab`: append and activate. -/
def addVncTab (vncTab : VncTab) (s : TerminalState) : TerminalState :=
  { s with vncTabs := s.vncTabs ++ [vncTab], activeTabId := some vncTab.id }

/-- `addRdpTab`: append and activate. -/
def addRdpTab (rdpTab : RdpTab) (s : TerminalState) : TerminalState :=
  { s with rdpTabs := s.rdpTabs ++ [rdpTab], activeTabId := some rdpTab.id }

/-- `closeFtpTab`: remove the matching tab; when it was active, pick
`newFtpTabs[min(closedIndex, newFtpTabs.length - 1)]`, else the first of
`sftpTabs`, `vncTabs`, `rdpTabs` in that order, else `null`. Note the
source's else-if chain never consults `state.tabs` (Terminal). -/
def closeFtpTab (tabId : String) (s : TerminalState) : TerminalState :=
  let newFtpTabs := s.ftpTabs.filter (fun tab => tab.id != tabId)
  let newActiveTabId :=
    if s.activeTabId = some tabId then
      let closedIndex := jsFindIndex (fun tab => tab.id == tabId) s.ftpTabs
      if newFtpTabs.length > 0 then
        (jsIndex newFtpTabs (min closedIndex ((newFtpTabs.length : Int) - 1))).map
          FtpTab.id
      else if s.sftpTabs.length > 0 then
        (s.sftpTabs[0]?).map SftpTab.id
      else if s.vncTabs.length > 0 then
        (s.vncTabs[0]?).map VncTab.id
      else if s.rdpTabs.length > 0 then
        (s.rdpTabs[0]?).map RdpTab.id
      else none
    else s.activeTabId
  { s with ftpTabs := newFtpTabs, activeTabId := newActiveTabId }

/-- `closeSftpTab`: same shape; fallback scan order `tabs`, `ftpTabs`,
`vncTabs`, `rdpTabs`. -/
def closeSftpTab (tabId : String) (s : TerminalState) : TerminalState :=
  let newSftpTabs := s.sftpTabs.filter (fun tab => tab.id != tabId)
  let newActiveTabId :=
    if s.activeTabId = some tabId then
      let closedIndex := jsFindIndex (fun tab => tab.id == tabId) s.sftpTabs
      if newSftpTabs.length > 0 then
        (jsIndex newSftpTabs (min closedIndex ((newSftpTabs.length : Int) - 1))).map
          SftpTab.id
      else if s.tabs.length > 0 then
        (s.tabs[0]?).map TerminalTab.id
      else if s.ftpTabs.length > 0 then
        (s.ftpTabs[0]?).map FtpTab.id
      else if s.vncTabs.length > 0 then
        (s.vncTabs[0]?).map VncTab.id
      else if s.rdpTabs.length > 0 then
        (s.rdpTabs[0]?).map RdpTab.id
      else none
    else s.activeTabId
  { s with sftpTabs := newSftpTabs, activeTabId := newActiveTabId }

/-- `closeVncTab`: fallback scan order `tabs`, `ftpTabs`, `sftpTabs`,
`rdpTabs`. -/
def closeVncTab (tabId : String) (s : TerminalState) : TerminalState :=
  let newVncTabs := s.vncTabs.filter (fun tab => tab.id != tabId)
  let newActiveTabId :=
    if s.activeTabId = some tabId then
      let closedIndex := jsFindIndex (fun tab => tab.id == tabId) s.vncTabs
      if newVncTabs.length > 0 then
        (jsIndex newVncTabs (min closedIndex ((newVncTabs.length : Int) - 1))).map
          VncTab.id
      else if s.tabs.length > 0 then
        (s.tabs[0]?).map TerminalTab.id
      else if s.ftpTabs.length > 0 then
        (s.ftpTabs[0]?).map FtpTab.id
      else if s.sftpTabs.length > 0 then
        (s.sftpTabs[0]?).map SftpTab.id
      else if s.rdpTabs.length > 0 then
        (s.rdpTabs[0]?).map RdpTab.id
      else none
    else s.activeTabId
  { s with vncTabs := newVncTabs, activeTabId := newActiveTabId }

/-- `closeRdpTab`: fallback scan order `tabs`, `ftpTabs`, `sftpTabs`,
`vncTabs`. -/
def closeRdpTab (tabId : String) (s : TerminalState) : TerminalState :=
  let newRdpTabs := s.rdpTabs.filter (fun tab => tab.id != tabId)
  let newActiveTabId :=
    if s.activeTabId = some tabId then
      let closedIndex := jsFindIndex (fun tab => tab.id == tabId) s.rdpTabs
      if newRdpTabs.length > 0 then
        (jsIndex newRdpTabs (min closedIndex ((newRdpTabs.length : Int) - 1))).map
          RdpTab.id
      else if s.tabs.length > 0 then
        (s.tabs[0]?).map TerminalTab.id
      else if s.ftpTabs.length > 0 then
        (s.ftpTabs[0]?).map FtpTab.id
      else if s.sftpTabs.length > 0 then
        (s.sftpTabs[0]?).map SftpTab.id
      else if s.vncTabs.length > 0 then
        (s.vncTabs[0]?).map VncTab.id
      else none
    else s.activeTabId
  { s with rdpTabs := newRdpTabs, activeTabId := newActiveTabId }

/-- `closeTerminal` (state update; the preceding
`invoke("close_terminal")` is backend I/O that does not touch the registry
state): remove the tab; when it was active, "Select adjacent tab or null if
no tabs left" — the source consults only the terminal collection and falls
back to `null`, with no cross-kind scan. -/
def closeTerminal (tabId : String) (s : TerminalState) : TerminalState :=
  let newTabs := s.tabs.filter (fun tab => tab.id != tabId)
  let newActiveTabId :=
    if s.activeTabId = some tabId then
      let closedIndex := jsFindIndex (fun tab => tab.id == tabId) s.tabs
      if newTabs.length > 0 then
        (jsIndex newTabs (min closedIndex ((newTabs.length : Int) - 1))).map
          TerminalTab.id
      else none
    else s.activeTabId
  { s with tabs := newTabs, activeTabId := newActiveTabId }

/-- `setActiveTab`: unconditional write of the active-tab id — the source
performs no existence check. -/
def setActiveTab (tabId : String) (s : TerminalState) : TerminalState :=
  { s with activeTabId := some tabId }

/-- `updateTabTitle`: retitle the matching terminal tab. -/
def updateTabTitle (tabId title : String) (s : TerminalState) : TerminalState :=
  { s with tabs := s.tabs.map (fun tab =>
      if tab.id == tabId then { tab with title := title } else tab) }

/-- All record ids across the five collections, in collection order. -/
def allIds (s : TerminalState) : List String :=
  s.tabs.map TerminalTab.id ++ s.ftpTabs.map FtpTab.id ++
    s.sftpTabs.map SftpTab.id ++ s.vncTabs.map VncTab.id ++
    s.rdpTabs.map RdpTab.id

/-- The uniqueness property exactly as the claim states it: the active tab
identifier is `null` or equals the id of exactly one record across the five
collections combined. -/
def ClaimInv (s : TerminalState) : Prop :=
  s.activeTabId = none ∨
    ∃ id, s.activeTabId = some id ∧ (allIds s).count id = 1

/-- Strengthened registry invariant: ids are globally pairwise distinct
across the five collections, and the active id (when set) belongs to some
record. -/
def RegistryInv (s : TerminalState) : Prop :=
  (allIds s).Nodup ∧ ∀ id, s.activeTabId = some id → id ∈ allIds s

end OpenTerm.TabsStore

namespace OpenTerm.SftpStore

/-! ## SFTP browsing store (`useSftpStore`)

Every action is modelled as a function of the store state and a gateway
oracle; it returns the new state, the list of backend calls it issued, and
`thrown = some e` when a gateway rejection was *not* caught by the action
and therefore propagates to the action's caller. (`useFtpStore` in
`src/stores/ftpStore.ts` defines the same action bodies over the same state
shape, with `ftpId` for `sftpId` and `ftp_*` backend commands; the theorems
below apply to that store verbatim.) -/

/-- Store state (`SftpState` minus the function-valued action fields). -/
structure SftpState where
  sftpId : Option String
  sessionId : Option String
  currentPath : String
  files : List FileEntry
  loading : Bool
  error : Option String
  transfers : List TransferProgress
  deriving DecidableEq, Repr

/-- One backend (`invoke`) call, with its arguments. -/
inductive GatewayCall where
  | listDir (sftpId path : String)
  | realpath (sftpId path : String)
  | mkdir (sftpId path : String)
  | delete (sftpId path : String) (isDir : Bool)
  | rename (sftpId oldPath newPath : String)
  | download (sftpId remotePath localPath : String)
  | upload (sftpId localPath remotePath : String)
  | uploadFolder (sftpId localPath remotePath : String)
  deriving DecidableEq, Repr

/-- Backend responses: each command either succeeds with its result or
rejects with an error string. -/
structure SftpGateway where
  listDir : String → String → Except String (List FileEntry)
  realpath : String → String → Except String String
  mkdir : String → String → Except String Unit
  delete : String → String → Bool → Except String Unit
  rename : String → String → String → Except String Unit
  download : String → String → String → Except String TransferProgress
  upload : String → String → String → Except String TransferProgress
  uploadFolder : String → String → String → Except String TransferProgress

/-- Result of running one store action: the state it leaves behind, the
gateway calls it issued, and the rejection it let escape to its caller
(`none` when the action's promise resolves normally). -/
structure OpResult where
  state : SftpState
  calls : List GatewayCall
  thrown : Option String
  deriving Repr

/-- `navigateTo`: guarded on `sftpId`; sets `loading`/clears `error`, asks
the backend for the real path and the listing; failures of either call are
caught and recorded in `error`, leaving `currentPath`/`files` untouched. -/
def navigateTo (gw : SftpGateway) (path : String) (s : SftpState) : OpResult :=
  match s.sftpId with
  | none => ⟨s, [], none⟩
  | some sftpId =>
    let s1 := { s with loading := true, error := none }
    match gw.realpath sftpId path with
    | .error e =>
      ⟨{ s1 with error := some e, loading := false }, [.realpath sftpId path], none⟩
    | .ok realPath =>
      match gw.listDir sftpId realPath with
      | .error e =>
        ⟨{ s1 with error := some e, loading := false },
          [.realpath sftpId path, .listDir sftpId realPath], none⟩
      | .ok files =>
        ⟨{ s1 with currentPath := realPath, files := files, loading := false },
          [.realpath sftpId path, .listDir sftpId realPath], none⟩

/-- `refresh`: guarded on `sftpId`; re-lists `currentPath`; failure caught
into `error`. -/
def refresh (gw : SftpGateway) (s : SftpState) : OpResult :=
  match s.sftpId with
  | none => ⟨s, [], none⟩
  | some sftpId =>
    let s1 := { s with loading := true, error := none }
    match gw.listDir sftpId s.currentPath with
    | .error e =>
      ⟨{ s1 with error := some e, loading := false }, [.listDir sftpId s.currentPath], none⟩
    | .ok files =>
      ⟨{ s1 with files := files, loading := false }, [.listDir sftpId s.currentPath], none⟩

/-- `createDirectory`: guarded on `sftpId`; issues `sftp_mkdir` on
`${currentPath}/${name}` **outside any try/catch** — a rejection propagates
to the caller and the state is left untouched; on success the implicit
`refresh` runs. -/
def createDirectory (gw : SftpGateway) (name : String) (s : SftpState) : OpResult :=
  match s.sftpId with
  | none => ⟨s, [], none⟩
  | some sftpId =>
    let fullPath := s.currentPath ++ "/" ++ name
    match gw.mkdir sftpId fullPath with
    | .error e => ⟨s, [.mkdir sftpId fullPath], some e⟩
    | .ok _ =>
      let r := refresh gw s
      ⟨r.state, .mkdir sftpId fullPath :: r.calls, r.thrown⟩

/-- `deleteItem`: guarded on `sftpId`; uncaught `sftp_delete`, then the
implicit `refresh`. -/
def deleteItem (gw : SftpGateway) (path : String) (isDir : Bool) (s : SftpState) :
    OpResult :=
  match s.sftpId with
  | none => ⟨s, [], none⟩
  | some sftpId =>
    match gw.delete sftpId path isDir with
    | .error e => ⟨s, [.delete sftpId path isDir], some e⟩
    | .ok _ =>
      let r := refresh gw s
      ⟨r.state, .delete sftpId path isDir :: r.calls, r.thrown⟩

/-- `rename`: guarded on `sftpId`; uncaught `sftp_rename`, then the
implicit `refresh`. -/
def rename (gw : SftpGateway) (oldPath newPath : String) (s : SftpState) : OpResult :=
  match s.sftpId with
  | none => ⟨s, [], none⟩
  | some sftpId =>
    match gw.rename sftpId oldPath newPath with
    | .error e => ⟨s, [.rename sftpId oldPath newPath], some e⟩
    | .ok _ =>
      let r := refresh gw s
      ⟨r.state, .rename sftpId oldPath newPath :: r.calls, r.thrown⟩

/-- `updateTransferProgress`: overwrite the matching record's byte counters
with the notified values. The source touches no other field — in
particular `status` is left as it was. -/
def updateTransferProgress (id : String) (transferred total : Nat) (s : SftpState) :
    SftpState :=
  { s with transfers := s.transfers.map (fun t =>
      if t.id == id then
        { t with transferred_bytes := transferred, total_bytes := total }
      else t) }

/-- `completeTransfer`: set the matching record's status to `Completed`,
with no guard on the current status. -/
def completeTransfer (id : String) (s : SftpState) : SftpState :=
  { s with transfers := s.transfers.map (fun t =>
      if t.id == id then { t with status := .Completed } else t) }

/-- `failTransfer`: set the matching record's status to `Failed error`,
with no guard on the current status. -/
def failTransfer (id error : String) (s : SftpState) : SftpState :=
  { s with transfers := s.transfers.map (fun t =>
      if t.id == id then { t with status := .Failed error } else t) }

/-- `download`: guarded on `sftpId`; starts the backend transfer (uncaught
`invoke`), appends the returned record, then subscribes the three
per-transfer listeners (handled by `downloadHandleEvent` below). -/
def download (gw : SftpGateway) (remotePath localPath : String) (s : SftpState) :
    OpResult :=
  match s.sftpId with
  | none => ⟨s, [], none⟩
  | some sftpId =>
    match gw.download sftpId remotePath localPath with
    | .error e => ⟨s, [.download sftpId remotePath localPath], some e⟩
    | .ok progress =>
      ⟨{ s with transfers := s.transfers ++ [progress] },
        [.download sftpId remotePath localPath], none⟩

/-- `upload`: guarded on `sftpId`; starts the backend transfer, appends the
returned record, then subscribes the three per-transfer listeners (handled
by `uploadHandleEvent` below). -/
def upload (gw : SftpGateway) (localPath remotePath : String) (s : SftpState) :
    OpResult :=
  match s.sftpId with
  | none => ⟨s, [], none⟩
  | some sftpId =>
    match gw.upload sftpId localPath remotePath with
    | .error e => ⟨s, [.upload sftpId localPath remotePath], some e⟩
    | .ok progress =>
      ⟨{ s with transfers := s.transfers ++ [progress] },
        [.upload sftpId localPath remotePath], none⟩

/-- `uploadFolder`: same shape as `upload` over `sftp_upload_folder`. -/
def uploadFolder (gw : SftpGateway) (localPath remotePath : String) (s : SftpState) :
    OpResult :=
  match s.sftpId with
  | none => ⟨s, [], none⟩
  | some sftpId =>
    match gw.uploadFolder sftpId localPath remotePath with
    | .error e => ⟨s, [.uploadFolder sftpId localPath remotePath], some e⟩
    | .ok progress =>
      ⟨{ s with transfers := s.transfers ++ [progress] },
        [.uploadFolder sftpId localPath remotePath], none⟩

/-! ### Per-transfer notification listeners

After a transfer starts, the store subscribes three channels keyed by the
transfer id: `transfer-progress-{id}`, `transfer-complete-{id}`,
`transfer-error-{id}`. Each terminal handler unsubscribes all three, so
once one has run, later events on any of the channels are no longer
delivered; the `subscribed` flag models this. `refreshCalls` counts the
`get().refresh()` invocations made by handlers. -/

/-- A notification delivered on one of the three per-transfer channels. -/
inductive TransferEvent where
  | progress (transferred total : Nat)
  | complete
  | failed (reason : String)
  deriving DecidableEq, Repr

/-- Listener bookkeeping around the store state. -/
structure ListenerState where
  state : SftpState
  subscribed : Bool
  refreshCalls : Nat
  deriving Repr

/-- The three listeners installed by `download`: progress updates bytes,
complete marks the record `Completed` (no `refresh`), error marks it
`Failed`; both terminal handlers unsubscribe all three channels. -/
def downloadHandleEvent (id : String) (ls : ListenerState) (ev : TransferEvent) :
    ListenerState :=
  if ls.subscribed then
    match ev with
    | .progress a b => { ls with state := updateTransferProgress id a b ls.state }
    | .complete =>
      { ls with state := completeTransfer id ls.state, subscribed := false }
    | .failed e =>
      { ls with state := failTransfer id e ls.state, subscribed := false }
  else ls

/-- The three listeners installed by `upload`: identical to `download`'s
except that the completion handler additionally invokes `get().refresh()`
after `completeTransfer`. -/
def uploadHandleEvent (gw : SftpGateway) (id : String) (ls : ListenerState)
    (ev : TransferEvent) : ListenerState :=
  if ls.subscribed then
    match ev with
    | .progress a b => { ls with state := updateTransferProgress id a b ls.state }
    | .complete =>
      let s1 := completeTransfer id ls.state
      { state := (refresh gw s1).state, subscribed := false
        refreshCalls := ls.refreshCalls + 1 }
    | .failed e =>
      { ls with state := failTransfer id e ls.state, subscribed := false }
  else ls

/-- The listeners installed by `uploadFolder` — the source duplicates the
`upload` listener bodies verbatim. -/
def uploadFolderHandleEvent (gw : SftpGateway) (id : String) (ls : ListenerState)
    (ev : TransferEvent) : ListenerState :=
  if ls.subscribed then
    match ev with
    | .progress a b => { ls with state := updateTransferProgress id a b ls.state }
    | .complete =>
      let s1 := completeTransfer id ls.state
      { state := (refresh gw s1).state, subscribed := false
        refreshCalls := ls.refreshCalls + 1 }
    | .failed e =>
      { ls with state := failTransfer id e ls.state, subscribed := false }
  else ls

/-- Deliver a sequence of notifications to the `download` listeners. -/
def runDownloadEvents (id : String) (ls : ListenerState)
    (evs : List TransferEvent) : ListenerState :=
  evs.foldl (downloadHandleEvent id) ls

/-- Deliver a sequence of notifications to the `upload` listeners. -/
def runUploadEvents (gw : SftpGateway) (id : String) (ls : ListenerState)
    (evs : List TransferEvent) : ListenerState :=
  evs.foldl (uploadHandleEvent gw id) ls

/-- Deliver a sequence of notifications to the `uploadFolder` listeners. -/
def runUploadFolderEvents (gw : SftpGateway) (id : String) (ls : ListenerState)
    (evs : List TransferEvent) : ListenerState :=
  evs.foldl (uploadFolderHandleEvent gw id) ls

end OpenTerm.SftpStore

namespace OpenTerm.LocalStore

/-! ## Local-files store (`useLocalStore`) — `navigateTo` / `navigateUp` -/

/-- Store state (the JS `Set<string>` of selected paths is modelled as its
element list in insertion order). -/
structure LocalState where
  currentPath : String
  files : List FileEntry
  loading : Bool
  error : Option String
  selectedFiles : List String
  deriving DecidableEq, Repr

/-- One backend call of this store. -/
inductive LocalCall where
  | listDir (path : String)
  deriving DecidableEq, Repr

/-- Backend oracle: `local_list_dir`. -/
structure LocalGateway where
  listDir : String → Except String (List FileEntry)

/-- `navigateTo`: set `loading`, clear `error` and the selection; list the
path; on success install `currentPath`/`files`, on failure record `error`. -/
def navigateTo (gw : LocalGateway) (path : String) (s : LocalState) :
    LocalState × List LocalCall :=
  let s1 := { s with loading := true, error := none, selectedFiles := [] }
  match gw.listDir path with
  | .error e => ({ s1 with error := some e, loading := false }, [.listDir path])
  | .ok files =>
    ({ s1 with currentPath := path, files := files, loading := false },
      [.listDir path])

/-- JS `String.prototype.split` on a character class, written out over the
character list (it keeps empty fragments, and splitting the empty string
yields `[""]`, exactly as in JavaScript). -/
def splitChars (p : Char → Bool) : List Char → List Char → List (List Char)
  | acc, [] => [acc.reverse]
  | acc, c :: cs =>
    if p c then acc.reverse :: splitChars p [] cs else splitChars p (c :: acc) cs

/-- JS `currentPath.split(/[/\\]/)`: split on forward or back slashes. -/
def splitPath (s : String) : List String :=
  (splitChars (fun c => c == '/' || c == '\\') [] s.data).map String.mk

/-- `navigateUp`: split `currentPath` on slashes; if at most one part is
left, return (the source comments this case "Already at root"); otherwise
drop the last part, rejoin with `/` (JS `|| "/"` substitutes `"/"` for the
empty string) and navigate there. -/
def navigateUp (gw : LocalGateway) (s : LocalState) : LocalState × List LocalCall :=
  let parts := splitPath s.currentPath
  if parts.length ≤ 1 then (s, [])
  else
    let joined := String.intercalate "/" (parts.dropLast)
    let parentPath := if joined = "" then "/" else joined
    navigateTo gw parentPath s

end OpenTerm.LocalStore

namespace OpenTerm.FileTree

/-! ## `FileTree` view sort (`src/components/sftp/FileTree.tsx`)

The view sorts a copy of `files` with a comparator returning `-1`/`1` for
the directory/non-directory cases and otherwise
`a.name.localeCompare(b.name)`. `localeCompare` is host-locale collation;
it is modelled here as Unicode code-point (lexicographic) string
comparison, with which it agrees on names drawn from a single case of
ASCII letters and digits. `Array.prototype.sort` is required to be stable
(ECMAScript 2019), so the sort is modelled by a stable insertion sort over
the same comparator. -/

/-- Three-way lexicographic comparison of character lists (code-point
order on each character). -/
def cmpCharList : List Char → List Char → Int
  | [], [] => 0
  | [], _ :: _ => -1
  | _ :: _, [] => 1
  | c :: cs, d :: ds =>
    if c < d then -1 else if d < c then 1 else cmpCharList cs ds

/-- Model of `String.prototype.localeCompare` (see the namespace comment):
negative/zero/positive by lexicographic code-point string comparison. -/
def localeCompare (x y : String) : Int :=
  cmpCharList x.data y.data

/-- The `sortedFiles` comparator from the source: directories before
non-directories, then by name. -/
def fileCmp (a b : FileEntry) : Int :=
  if a.file_type = .Directory ∧ b.file_type ≠ .Directory then -1
  else if a.file_type ≠ .Directory ∧ b.file_type = .Directory then 1
  else localeCompare a.name b.name

/-- Stable insertion: place `x` before the first element `y` with
`cmp x y ≤ 0`; among comparator-equal elements the earlier-listed one stays
first, as ECMAScript's stable sort requires. -/
def insertSorted (cmp : FileEntry → FileEntry → Int) (x : FileEntry) :
    List FileEntry → List FileEntry
  | [] => [x]
  | y :: ys =>
    if cmp x y ≤ 0 then x :: y :: ys else y :: insertSorted cmp x ys

/-- Stable sort by a comparator (insertion sort; agrees with every stable
sort on a consistent comparator such as `fileCmp`). -/
def stableSort (cmp : FileEntry → FileEntry → Int) : List FileEntry → List FileEntry
  | [] => []
  | x :: xs => insertSorted cmp x (stableSort cmp xs)

/-- `sortedFiles`: the order the view presents. -/
def sortedFiles (files : List FileEntry) : List FileEntry :=
  stableSort fileCmp files

end OpenTerm.FileTree

namespace OpenTerm

/-! ## Concrete fixtures used by the closed evaluation theorems -/

/-- A local terminal session record with the given id. -/
def sampleSession (i : String) : SessionInfo := ⟨i, .Local, "Terminal"⟩

/-- A terminal tab with the given id. -/
def sampleTermTab (i : String) : TerminalTab := ⟨i, "Terminal", sampleSession i⟩

/-- An FTP tab with the given id. -/
def sampleFtpTab (i : String) : FtpTab := ⟨i, "FTP", "ftp.example.com", none, none⟩

/-- An SFTP tab with the given id. -/
def sampleSftpTab (i : String) : SftpTab :=
  ⟨i, "SFTP", "sess-1", "host.example.com", none, none⟩

/-- A VNC tab with the given id. -/
def sampleVncTab (i : String) : VncTab :=
  ⟨i, "VNC", "host.example.com", 800, 600, none, none⟩

/-- An RDP tab with the given id. -/
def sampleRdpTab (i : String) : RdpTab :=
  ⟨i, "RDP", "host.example.com", 800, 600, none, none⟩

/-- A gateway on which every request succeeds (listings come back empty,
transfers come back as a fresh `Pending` record). -/
def gwOk : SftpStore.SftpGateway :=
  { listDir := fun _ _ => .ok []
    realpath := fun _ p => .ok p
    mkdir := fun _ _ => .ok ()
    delete := fun _ _ _ => .ok ()
    rename := fun _ _ _ => .ok ()
    download := fun _ r l => .ok ⟨"tr-1", r, l, r, false, 0, 0, .Pending⟩
    upload := fun _ l r => .ok ⟨"tr-1", l, l, r, true, 0, 0, .Pending⟩
    uploadFolder := fun _ l r => .ok ⟨"tr-1", l, l, r, true, 0, 0, .Pending⟩ }

/-- A gateway whose `sftp_mkdir` rejects with `"Permission denied"` and on
which everything else succeeds. -/
def gwMkdirFail : SftpStore.SftpGateway :=
  { gwOk with mkdir := fun _ _ => .error "Permission denied" }

/-- An open browsing session at `/home/user` with a clean error field. -/
def sampleSftpState : SftpStore.SftpState :=
  { sftpId := some "sftp-1", sessionId := some "sess-1"
    currentPath := "/home/user", files := [], loading := false
    error := none, transfers := [] }

/-- A store state holding one already-`Completed` transfer `t1`. -/
def completedTransferState : SftpStore.SftpState :=
  { sampleSftpState with
    transfers := [⟨"t1", "file.txt", "/local/file.txt", "/remote/file.txt",
      true, 100, 100, .Completed⟩] }

/-- A store state holding one still-`Pending` transfer `t1`. -/
def pendingTransferState : SftpStore.SftpState :=
  { sampleSftpState with
    transfers := [⟨"t1", "file.txt", "/local/file.txt", "/remote/file.txt",
      true, 0, 0, .Pending⟩] }

/-- A local-files gateway whose listing succeeds with one entry. -/
def gwLocal : LocalStore.LocalGateway :=
  { listDir := fun _ => .ok [⟨"etc", "/etc", .Directory, 0, none, none⟩] }

/-- A local-files store state sitting at the filesystem root `/`. -/
def rootLocalState : LocalStore.LocalState :=
  { currentPath := "/", files := [], loading := false, error := none
    selectedFiles := ["/tmp/x"] }

end OpenTerm

namespace OpenTerm

/-! ## Supporting lemmas -/

/-- A `jsIndex` hit is a member of the list. -/
lemma jsIndex_mem {α : Type} {l : List α} {i : Int} {x : α}
    (h : jsIndex l i = some x) : x ∈ l := by
  unfold jsIndex at h
  split at h
  · exact List.getElem?_mem h
  · cases h

/-- `jsFindIndex` agrees with `List.findIdx?` on a hit. -/
lemma jsFindIndex_eq_of_findIdx? {α : Type} {p : α → Bool} {l : List α} {i : Nat}
    (h : l.findIdx? p = some i) : jsFindIndex p l = (i : Int) := by
  unfold jsFindIndex
  rw [h]

/-- On a non-empty list, the JS indexing at `min(i, len - 1)` is ordinary
indexing at the `Nat`-level minimum. -/
lemma jsIndex_min_natCast {α : Type} (l : List α) (i : Nat) (h : l ≠ []) :
    jsIndex l (min (i : Int) ((l.length : Int) - 1)) = l[min i (l.length - 1)]? := by
  have h1 : 0 < l.length := List.length_pos.mpr h
  unfold jsIndex
  rw [if_pos (by omega)]
  congr 1
  omega

end OpenTerm

namespace OpenTerm

open TabsStore

/-- C1, counterexample: with one Terminal tab and one active Ftp tab,
closing the Ftp tab leaves the active id `null` instead of activating the
Terminal tab (the source's `closeFtpTab` fallback chain never consults the
terminal collection); symmetrically, with the Terminal tab active, closing
it leaves the active id `null` instead of activating the Ftp tab (the
source's `closeTerminal` has no cross-kind fallback at all). Both refute
the claimed fixed Terminal→Ftp→Sftp→Vnc→Rdp scan. -/
theorem c1_counterexample :
    ((closeFtpTab "ftp-1"
        { tabs := [sampleTermTab "term-1"], ftpTabs := [sampleFtpTab "ftp-1"]
          sftpTabs := [], vncTabs := [], rdpTabs := []
          activeTabId := some "ftp-1" }).activeTabId = none ∧
      (closeFtpTab "ftp-1"
        { tabs := [sampleTermTab "term-1"], ftpTabs := [sampleFtpTab "ftp-1"]
          sftpTabs := [], vncTabs := [], rdpTabs := []
          activeTabId := some "ftp-1" }).activeTabId ≠ some "term-1") ∧
    ((closeTerminal "term-1"
        { tabs := [sampleTermTab "term-1"], ftpTabs := [sampleFtpTab "ftp-1"]
          sftpTabs := [], vncTabs := [], rdpTabs := []
          activeTabId := some "term-1" }).activeTabId = none ∧
      (closeTerminal "term-1"
        { tabs := [sampleTermTab "term-1"], ftpTabs := [sampleFtpTab "ftp-1"]
          sftpTabs := [], vncTabs := [], rdpTabs := []
          activeTabId := some "term-1" }).activeTabId ≠ some "ftp-1") := by
  decide

/-- C1 (amended): when the closed tab was active and its own kind's
collection empties, `closeSftpTab`, `closeVncTab` and `closeRdpTab` do scan
the remaining kinds in the priority order Terminal, Ftp, Sftp, Vnc, Rdp
(skipping the emptied kind) and activate the first record of the first
non-empty kind; but `closeFtpTab` scans only Sftp, Vnc, Rdp — a Terminal
tab is never selected — and `closeTerminal` performs no cross-kind scan at
all: it sets the active id to `null` even when other kinds are non-empty. -/
theorem c1_amended (s : TerminalState) (tabId : String)
    (hact : s.activeTabId = some tabId) :
    (s.ftpTabs.filter (fun tab => tab.id != tabId) = [] →
      (closeFtpTab tabId s).activeTabId =
        (if s.sftpTabs ≠ [] then (s.sftpTabs[0]?).map SftpTab.id
         else if s.vncTabs ≠ [] then (s.vncTabs[0]?).map VncTab.id
         else if s.rdpTabs ≠ [] then (s.rdpTabs[0]?).map RdpTab.id
         else none)) ∧
    (s.tabs.filter (fun tab => tab.id != tabId) = [] →
      (closeTerminal tabId s).activeTabId = none) ∧
    (s.sftpTabs.filter (fun tab => tab.id != tabId) = [] →
      (closeSftpTab tabId s).activeTabId =
        (if s.tabs ≠ [] then (s.tabs[0]?).map TerminalTab.id
         else if s.ftpTabs ≠ [] then (s.ftpTabs[0]?).map FtpTab.id
         else if s.vncTabs ≠ [] then (s.vncTabs[0]?).map VncTab.id
         else if s.rdpTabs ≠ [] then (s.rdpTabs[0]?).map RdpTab.id
         else none)) ∧
    (s.vncTabs.filter (fun tab => tab.id != tabId) = [] →
      (closeVncTab tabId s).activeTabId =
        (if s.tabs ≠ [] then (s.tabs[0]?).map TerminalTab.id
         else if s.ftpTabs ≠ [] then (s.ftpTabs[0]?).map FtpTab.id
         else if s.sftpTabs ≠ [] then (s.sftpTabs[0]?).map SftpTab.id
         else if s.rdpTabs ≠ [] then (s.rdpTabs[0]?).map RdpTab.id
         else none)) ∧
    (s.rdpTabs.filter (fun tab => tab.id != tabId) = [] →
      (closeRdpTab tabId s).activeTabId =
        (if s.tabs ≠ [] then (s.tabs[0]?).map TerminalTab.id
         else if s.ftpTabs ≠ [] then (s.ftpTabs[0]?).map FtpTab.id
         else if s.sftpTabs ≠ [] then (s.sftpTabs[0]?).map SftpTab.id
         else if s.vncTabs ≠ [] then (s.vncTabs[0]?).map VncTab.id
         else none)) := by
  refine ⟨?_, ?_, ?_, ?_, ?_⟩ <;> intro h
  · rcases hS : s.sftpTabs with _ | ⟨a, as⟩ <;>
      rcases hV : s.vncTabs with _ | ⟨b, bs⟩ <;>
        rcases hR : s.rdpTabs with _ | ⟨c, cs⟩ <;>
          simp [closeFtpTab, hact, h, hS, hV, hR]
  · simp [closeTerminal, hact, h]
  · rcases hT : s.tabs with _ | ⟨t, ts⟩ <;>
      rcases hF : s.ftpTabs with _ | ⟨f, fs⟩ <;>
        rcases hV : s.vncTabs with _ | ⟨b, bs⟩ <;>
          rcases hR : s.rdpTabs with _ | ⟨c, cs⟩ <;>
            simp [closeSftpTab, hact, h, hT, hF, hV, hR]
  · rcases hT : s.tabs with _ | ⟨t, ts⟩ <;>
      rcases hF : s.ftpTabs with _ | ⟨f, fs⟩ <;>
        rcases hS : s.sftpTabs with _ | ⟨a, as⟩ <;>
          rcases hR : s.rdpTabs with _ | ⟨c, cs⟩ <;>
            simp [closeVncTab, hact, h, hT, hF, hS, hR]
  · rcases hT : s.tabs with _ | ⟨t, ts⟩ <;>
      rcases hF : s.ftpTabs with _ | ⟨f, fs⟩ <;>
        rcases hS : s.sftpTabs with _ | ⟨a, as⟩ <;>
          rcases hV : s.vncTabs with _ | ⟨b, bs⟩ <;>
            simp [closeRdpTab, hact, h, hT, hF, hS, hV]

/-- C1 (amended), witness: closing the last active Ftp tab with an Sftp tab
open activates that Sftp tab, by the amended fallback characterisation. -/
theorem c1_amended_witness :
    (closeFtpTab "ftp-1"
      { tabs := [sampleTermTab "term-1"], ftpTabs := [sampleFtpTab "ftp-1"]
        sftpTabs := [sampleSftpTab "sftp-9"], vncTabs := [], rdpTabs := []
        activeTabId := some "ftp-1" }).activeTabId = some "sftp-9" := by
  have h := (c1_amended
    { tabs := [sampleTermTab "term-1"], ftpTabs := [sampleFtpTab "ftp-1"]
      sftpTabs := [sampleSftpTab "sftp-9"], vncTabs := [], rdpTabs := []
      activeTabId := some "ftp-1" } "ftp-1" rfl).1 (by decide)
  simpa [sampleSftpTab] using h

end OpenTerm

namespace OpenTerm

open TabsStore

/-- C3: when the closed tab was active and its own kind's collection is
still non-empty after removal, the close operation activates the record at
index `min(closedIndex, len - 1)` of that same kind's collection (with
`closedIndex` the position of the removed record before removal, as located
by `findIdx?`), shown for the cited `closeFtpTab` and `closeTerminal`; and
when every collection is empty after removal, the active id becomes `null`. -/
theorem c3_slide_in (s : TerminalState) (tabId : String) (i : Nat)
    (hact : s.activeTabId = some tabId) :
    (s.ftpTabs.findIdx? (fun tab => tab.id == tabId) = some i →
      s.ftpTabs.filter (fun tab => tab.id != tabId) ≠ [] →
      (closeFtpTab tabId s).activeTabId =
        ((s.ftpTabs.filter (fun tab => tab.id != tabId))[
            min i ((s.ftpTabs.filter (fun tab => tab.id != tabId)).length - 1)]?).map
          FtpTab.id) ∧
    (s.tabs.findIdx? (fun tab => tab.id == tabId) = some i →
      s.tabs.filter (fun tab => tab.id != tabId) ≠ [] →
      (closeTerminal tabId s).activeTabId =
        ((s.tabs.filter (fun tab => tab.id != tabId))[
            min i ((s.tabs.filter (fun tab => tab.id != tabId)).length - 1)]?).map
          TerminalTab.id) ∧
    (s.ftpTabs.filter (fun tab => tab.id != tabId) = [] → s.tabs = [] →
      s.sftpTabs = [] → s.vncTabs = [] → s.rdpTabs = [] →
      (closeFtpTab tabId s).activeTabId = none) ∧
    (s.tabs.filter (fun tab => tab.id != tabId) = [] → s.ftpTabs = [] →
      s.sftpTabs = [] → s.vncTabs = [] → s.rdpTabs = [] →
      (closeTerminal tabId s).activeTabId = none) := by
  refine ⟨?_, ?_, ?_, ?_⟩
  · intro hfind hne
    have hlen : 0 < (s.ftpTabs.filter (fun tab => tab.id != tabId)).length :=
      List.length_pos.mpr hne
    simp only [closeFtpTab, hact, if_pos rfl, if_pos hlen,
      jsFindIndex_eq_of_findIdx? hfind, jsIndex_min_natCast _ _ hne, if_true]
  · intro hfind hne
    have hlen : 0 < (s.tabs.filter (fun tab => tab.id != tabId)).length :=
      List.length_pos.mpr hne
    simp only [closeTerminal, hact, if_pos rfl, if_pos hlen,
      jsFindIndex_eq_of_findIdx? hfind, jsIndex_min_natCast _ _ hne, if_true]
  · intro h _ hS hV hR
    simp [closeFtpTab, hact, h, hS, hV, hR]
  · intro h _ _ _ _
    simp [closeTerminal, hact, h]

/-- C3, witness: with tabs `[A(term)]` and `[B(ftp), C(ftp)]` and `B`
active, closing `B` activates `C` (same-kind slide-in); with only
`[A(term)]` and `A` active, closing `A` leaves the active id `null` — both
obtained from `c3_slide_in` at the concrete states. -/
theorem c3_slide_in_witness :
    (closeFtpTab "b"
      { tabs := [sampleTermTab "a"], ftpTabs := [sampleFtpTab "b", sampleFtpTab "c"]
        sftpTabs := [], vncTabs := [], rdpTabs := []
        activeTabId := some "b" }).activeTabId = some "c" ∧
    (closeTerminal "a"
      { tabs := [sampleTermTab "a"], ftpTabs := [], sftpTabs := [], vncTabs := []
        rdpTabs := [], activeTabId := some "a" }).activeTabId = none := by
  constructor
  · have h := (c3_slide_in
      { tabs := [sampleTermTab "a"], ftpTabs := [sampleFtpTab "b", sampleFtpTab "c"]
        sftpTabs := [], vncTabs := [], rdpTabs := []
        activeTabId := some "b" } "b" 0 rfl).1 (by decide) (by decide)
    simpa [sampleFtpTab] using h
  · exact (c3_slide_in
      { tabs := [sampleTermTab "a"], ftpTabs := [], sftpTabs := [], vncTabs := []
        rdpTabs := [], activeTabId := some "a" } "a" 0 rfl).2.2.2
      (by decide) rfl rfl rfl rfl

end OpenTerm

namespace OpenTerm

/-- A list map whose function fixes every element of the list is the
identity on that list. -/
lemma list_map_fixpoints {α : Type} {l : List α} {f : α → α}
    (h : ∀ t ∈ l, f t = t) : l.map f = l := by
  induction l with
  | nil => rfl
  | cons t ts ih =>
    simp only [List.map_cons]
    rw [h t (by simp), ih (fun x hx => h x (by simp [hx]))]

/-- Folding a step function that fixes the given accumulator leaves it
unchanged. -/
lemma foldl_const_of_fix {α β : Type} (g : α → β → α) (ls : α)
    (h : ∀ ev, g ls ev = ls) : ∀ evs : List β, evs.foldl g ls = ls := by
  intro evs
  induction evs with
  | nil => rfl
  | cons e es ih => rw [List.foldl_cons, h e, ih]

/-- C4, counterexample: with an open session at `/home/user` and a backend
whose `sftp_mkdir` rejects with `"Permission denied"`, `createDirectory`
lets the rejection propagate to its caller (`thrown` is set) and the
cache's `error` field stays `none`, with the whole state unchanged —
refuting the claim that mutation failures are caught at the call site and
recorded in `error`. -/
theorem c4_counterexample :
    (SftpStore.createDirectory gwMkdirFail "newdir" sampleSftpState).thrown =
      some "Permission denied" ∧
    (SftpStore.createDirectory gwMkdirFail "newdir" sampleSftpState).state.error =
      none ∧
    (SftpStore.createDirectory gwMkdirFail "newdir" sampleSftpState).state =
      sampleSftpState := by
  decide

/-- C4 (amended): with an open session, a Gateway failure of `sftp_mkdir`,
`sftp_delete` or `sftp_rename` is *not* caught inside the store operation:
the rejection propagates to the operation's caller (the UI layer catches it
and shows a toast), the cache's `error` field and all other state are left
unchanged, and the implicit `refresh` is skipped — unlike navigation and
refresh failures, which are caught and recorded in `error`. -/
theorem c4_amended (gw : SftpStore.SftpGateway) (s : SftpStore.SftpState)
    (sid : String) (hs : s.sftpId = some sid) :
    (∀ name e, gw.mkdir sid (s.currentPath ++ "/" ++ name) = .error e →
      SftpStore.createDirectory gw name s =
        ⟨s, [.mkdir sid (s.currentPath ++ "/" ++ name)], some e⟩) ∧
    (∀ path isDir e, gw.delete sid path isDir = .error e →
      SftpStore.deleteItem gw path isDir s = ⟨s, [.delete sid path isDir], some e⟩) ∧
    (∀ oldPath newPath e, gw.rename sid oldPath newPath = .error e →
      SftpStore.rename gw oldPath newPath s =
        ⟨s, [.rename sid oldPath newPath], some e⟩) := by
  refine ⟨?_, ?_, ?_⟩
  · intro name e h
    simp [SftpStore.createDirectory, hs, h]
  · intro path isDir e h
    simp [SftpStore.deleteItem, hs, h]
  · intro oldPath newPath e h
    simp [SftpStore.rename, hs, h]

/-- C4 (amended), witness: the amended propagation behaviour at the
concrete failing mkdir. -/
theorem c4_amended_witness :
    SftpStore.createDirectory gwMkdirFail "newdir" sampleSftpState =
      ⟨sampleSftpState,
        [.mkdir "sftp-1" (sampleSftpState.currentPath ++ "/" ++ "newdir")],
        some "Permission denied"⟩ :=
  (c4_amended gwMkdirFail sampleSftpState "sftp-1" rfl).1 "newdir"
    "Permission denied" rfl

/-- C5, counterexample: a transfer whose status is already terminal
(`Completed`) has its status overwritten to `Failed "boom"` by a second
(failure) notification — `failTransfer` has no terminal-status guard, so
the claim that a second completion-or-failure delivery never mutates the
status is false. -/
theorem c5_counterexample :
    completedTransferState.transfers.map TransferProgress.status =
      [.Completed] ∧
    (SftpStore.failTransfer "t1" "boom" completedTransferState).transfers.map
      TransferProgress.status = [.Failed "boom"] := by
  decide

/-- C5 (amended): re-invoking `completeTransfer` on an already-`Completed`
transfer, or `failTransfer` with the same reason on an already-`Failed`
transfer, leaves the store unchanged and cannot throw (both are total
functions, and each is idempotent); and once a terminal handler has run the
three channels are unsubscribed, so any notification delivered afterwards
leaves the listener state untouched. The store functions themselves carry
no terminal-status guard, however: `failTransfer` on a `Completed` record
(or `completeTransfer` on a `Failed` one) overwrites the terminal status. -/
theorem c5_amended (s : SftpStore.SftpState) (id e : String) :
    SftpStore.completeTransfer id (SftpStore.completeTransfer id s) =
      SftpStore.completeTransfer id s ∧
    SftpStore.failTransfer id e (SftpStore.failTransfer id e s) =
      SftpStore.failTransfer id e s ∧
    ((∀ t ∈ s.transfers, t.id = id → t.status = .Completed) →
      SftpStore.completeTransfer id s = s) ∧
    ((∀ t ∈ s.transfers, t.id = id → t.status = .Failed e) →
      SftpStore.failTransfer id e s = s) ∧
    (∀ gw ls evs, ls.subscribed = false →
      SftpStore.runUploadEvents gw id ls evs = ls ∧
      SftpStore.runUploadFolderEvents gw id ls evs = ls ∧
      SftpStore.runDownloadEvents id ls evs = ls) := by
  refine ⟨?_, ?_, ?_, ?_, ?_⟩
  · simp only [SftpStore.completeTransfer, List.map_map]
    congr 1
    apply List.map_congr_left
    intro t _
    by_cases h : t.id == id <;> simp [Function.comp, h]
  · simp only [SftpStore.failTransfer, List.map_map]
    congr 1
    apply List.map_congr_left
    intro t _
    by_cases h : t.id == id <;> simp [Function.comp, h]
  · intro h
    simp only [SftpStore.completeTransfer]
    rw [list_map_fixpoints]
    intro t ht
    by_cases hb : t.id == id
    · have hid : t.id = id := by simpa using hb
      have hst := h t ht hid
      cases t
      simp_all
    · simp [hb]
  · intro h
    simp only [SftpStore.failTransfer]
    rw [list_map_fixpoints]
    intro t ht
    by_cases hb : t.id == id
    · have hid : t.id = id := by simpa using hb
      have hst := h t ht hid
      cases t
      simp_all
    · simp [hb]
  · intro gw ls evs hsub
    refine ⟨?_, ?_, ?_⟩
    · exact foldl_const_of_fix _ _
        (fun ev => by simp [SftpStore.uploadHandleEvent, hsub]) evs
    · exact foldl_const_of_fix _ _
        (fun ev => by simp [SftpStore.uploadFolderHandleEvent, hsub]) evs
    · exact foldl_const_of_fix _ _
        (fun ev => by simp [SftpStore.downloadHandleEvent, hsub]) evs

/-- C5 (amended), witness: repeating the completion notification for the
already-`Completed` transfer `t1` leaves the store unchanged. -/
theorem c5_amended_witness :
    SftpStore.completeTransfer "t1" completedTransferState =
      completedTransferState :=
  (c5_amended completedTransferState "t1" "x").2.2.1 (by decide)

/-- C7, counterexample: a progress notification for a still-`Pending`
transfer updates its byte counters but leaves the status `Pending` — the
handler never promotes `Pending` to `InProgress`, refuting that part of the
claim. -/
theorem c7_counterexample :
    pendingTransferState.transfers.map TransferProgress.status = [.Pending] ∧
    (SftpStore.updateTransferProgress "t1" 5 10 pendingTransferState).transfers.map
      TransferProgress.status = [.Pending] ∧
    (SftpStore.updateTransferProgress "t1" 5 10 pendingTransferState).transfers.map
      TransferProgress.transferred_bytes = [5] ∧
    (SftpStore.updateTransferProgress "t1" 5 10 pendingTransferState).transfers.map
      TransferProgress.status ≠ [.InProgress] := by
  decide

/-- C7 (amended): a progress notification overwrites the matching record's
`transferred_bytes`/`total_bytes` with the notified values and touches
nothing else — every record's status is left exactly as it was (there is no
Pending→InProgress promotion), and records with other ids are returned
unchanged. -/
theorem c7_amended (s : SftpStore.SftpState) (id : String) (a b : Nat) :
    (SftpStore.updateTransferProgress id a b s).transfers.map
      TransferProgress.status = s.transfers.map TransferProgress.status ∧
    (∀ i : Nat, (SftpStore.updateTransferProgress id a b s).transfers[i]? =
      (s.transfers[i]?).map (fun t =>
        if t.id = id then { t with transferred_bytes := a, total_bytes := b }
        else t)) := by
  constructor
  · simp only [SftpStore.updateTransferProgress, List.map_map]
    apply List.map_congr_left
    intro t _
    by_cases h : t.id == id <;> simp [Function.comp, h]
  · intro i
    simp only [SftpStore.updateTransferProgress, List.getElem?_map]
    cases h : s.transfers[i]? with
    | none => rfl
    | some t => by_cases hb : t.id == id <;> simp [hb, beq_iff_eq]

end OpenTerm

namespace OpenTerm

/-- C8: evaluation at the failing input. At `currentPath = "/"` the split
on slashes yields two (empty) parts, so the `parts.length <= 1` guard —
whose source comment reads "Already at root" — does **not** fire:
`navigateUp` issues a backend `local_list_dir "/"` call and mutates the
cache (clearing the selection and replacing the listing) instead of being
the no-op the claim (and the code's own comment) describe. The guard fires
only for a path with no separator at all, such as the empty string. -/
theorem c8_root_navigates :
    rootLocalState.currentPath = "/" ∧
    LocalStore.splitPath "/" = ["", ""] ∧
    (LocalStore.navigateUp gwLocal rootLocalState).2 = [.listDir "/"] ∧
    (LocalStore.navigateUp gwLocal rootLocalState).1 ≠ rootLocalState ∧
    LocalStore.navigateUp gwLocal { rootLocalState with currentPath := "" } =
      ({ rootLocalState with currentPath := "" }, []) := by
  decide

/-- C10: every browsing-store operation that needs an open session —
`navigateTo`, `refresh`, `createDirectory`, `deleteItem`, `rename`,
`download`, `upload`, `uploadFolder` — returns immediately when the store's
session id is `null`: the state is returned unchanged, no Gateway call is
issued, and nothing is thrown. -/
theorem c10_null_guard (gw : SftpStore.SftpGateway) (s : SftpStore.SftpState)
    (h : s.sftpId = none) :
    (∀ path, SftpStore.navigateTo gw path s = ⟨s, [], none⟩) ∧
    SftpStore.refresh gw s = ⟨s, [], none⟩ ∧
    (∀ name, SftpStore.createDirectory gw name s = ⟨s, [], none⟩) ∧
    (∀ path isDir, SftpStore.deleteItem gw path isDir s = ⟨s, [], none⟩) ∧
    (∀ oldPath newPath, SftpStore.rename gw oldPath newPath s = ⟨s, [], none⟩) ∧
    (∀ remotePath localPath,
      SftpStore.download gw remotePath localPath s = ⟨s, [], none⟩) ∧
    (∀ localPath remotePath,
      SftpStore.upload gw localPath remotePath s = ⟨s, [], none⟩) ∧
    (∀ localPath remotePath,
      SftpStore.uploadFolder gw localPath remotePath s = ⟨s, [], none⟩) := by
  refine ⟨fun _ => ?_, ?_, fun _ => ?_, fun _ _ => ?_, fun _ _ => ?_,
    fun _ _ => ?_, fun _ _ => ?_, fun _ _ => ?_⟩ <;>
    simp [SftpStore.navigateTo, SftpStore.refresh, SftpStore.createDirectory,
      SftpStore.deleteItem, SftpStore.rename, SftpStore.download,
      SftpStore.upload, SftpStore.uploadFolder, h]

/-- C10, witness: `navigateTo` on a disconnected store is the identity with
no backend traffic. -/
theorem c10_null_guard_witness :
    SftpStore.navigateTo gwOk "/etc" { sampleSftpState with sftpId := none } =
      ⟨{ sampleSftpState with sftpId := none }, [], none⟩ :=
  (c10_null_guard gwOk { sampleSftpState with sftpId := none } rfl).1 "/etc"

end OpenTerm

namespace OpenTerm

/-- Progress notifications leave the subscription flag and the refresh
counter of the `upload` listeners untouched. -/
lemma runUploadEvents_progress_aux (gw : SftpStore.SftpGateway) (id : String) :
    ∀ (ps : List (Nat × Nat)) (ls : SftpStore.ListenerState),
      (SftpStore.runUploadEvents gw id ls
        (ps.map fun p => SftpStore.TransferEvent.progress p.1 p.2)).subscribed =
          ls.subscribed ∧
      (SftpStore.runUploadEvents gw id ls
        (ps.map fun p => SftpStore.TransferEvent.progress p.1 p.2)).refreshCalls =
          ls.refreshCalls := by
  intro ps
  induction ps with
  | nil => intro ls; exact ⟨rfl, rfl⟩
  | cons p ps ih =>
    intro ls
    have hstep :
        (SftpStore.uploadHandleEvent gw id ls (.progress p.1 p.2)).subscribed =
            ls.subscribed ∧
          (SftpStore.uploadHandleEvent gw id ls (.progress p.1 p.2)).refreshCalls =
            ls.refreshCalls := by
      by_cases h : ls.subscribed <;> simp [SftpStore.uploadHandleEvent, h]
    obtain ⟨h1, h2⟩ := ih (SftpStore.uploadHandleEvent gw id ls (.progress p.1 p.2))
    exact ⟨h1.trans hstep.1, h2.trans hstep.2⟩

/-- Progress notifications leave the subscription flag and the refresh
counter of the `uploadFolder` listeners untouched. -/
lemma runUploadFolderEvents_progress_aux (gw : SftpStore.SftpGateway) (id : String) :
    ∀ (ps : List (Nat × Nat)) (ls : SftpStore.ListenerState),
      (SftpStore.runUploadFolderEvents gw id ls
        (ps.map fun p => SftpStore.TransferEvent.progress p.1 p.2)).subscribed =
          ls.subscribed ∧
      (SftpStore.runUploadFolderEvents gw id ls
        (ps.map fun p => SftpStore.TransferEvent.progress p.1 p.2)).refreshCalls =
          ls.refreshCalls := by
  intro ps
  induction ps with
  | nil => intro ls; exact ⟨rfl, rfl⟩
  | cons p ps ih =>
    intro ls
    have hstep :
        (SftpStore.uploadFolderHandleEvent gw id ls (.progress p.1 p.2)).subscribed =
            ls.subscribed ∧
          (SftpStore.uploadFolderHandleEvent gw id ls
              (.progress p.1 p.2)).refreshCalls = ls.refreshCalls := by
      by_cases h : ls.subscribed <;> simp [SftpStore.uploadFolderHandleEvent, h]
    obtain ⟨h1, h2⟩ :=
      ih (SftpStore.uploadFolderHandleEvent gw id ls (.progress p.1 p.2))
    exact ⟨h1.trans hstep.1, h2.trans hstep.2⟩

/-- Progress notifications leave the subscription flag and the refresh
counter of the `download` listeners untouched. -/
lemma runDownloadEvents_progress_aux (id : String) :
    ∀ (ps : List (Nat × Nat)) (ls : SftpStore.ListenerState),
      (SftpStore.runDownloadEvents id ls
        (ps.map fun p => SftpStore.TransferEvent.progress p.1 p.2)).subscribed =
          ls.subscribed ∧
      (SftpStore.runDownloadEvents id ls
        (ps.map fun p => SftpStore.TransferEvent.progress p.1 p.2)).refreshCalls =
          ls.refreshCalls := by
  intro ps
  induction ps with
  | nil => intro ls; exact ⟨rfl, rfl⟩
  | cons p ps ih =>
    intro ls
    have hstep :
        (SftpStore.downloadHandleEvent id ls (.progress p.1 p.2)).subscribed =
            ls.subscribed ∧
          (SftpStore.downloadHandleEvent id ls (.progress p.1 p.2)).refreshCalls =
            ls.refreshCalls := by
      by_cases h : ls.subscribed <;> simp [SftpStore.downloadHandleEvent, h]
    obtain ⟨h1, h2⟩ := ih (SftpStore.downloadHandleEvent id ls (.progress p.1 p.2))
    exact ⟨h1.trans hstep.1, h2.trans hstep.2⟩

/-- C6: for a started transfer (listeners subscribed, no refresh yet) that
receives any number of progress notifications followed by its completion
notification, the handlers invoke the directory cache's `refresh` exactly
once when the transfer was started by `upload` or `uploadFolder`, and zero
times when it was started by `download`. -/
theorem c6_upload_refresh (gw : SftpStore.SftpGateway) (id : String)
    (s : SftpStore.SftpState) (ps : List (Nat × Nat)) :
    (SftpStore.runUploadEvents gw id ⟨s, true, 0⟩
      ((ps.map fun p => SftpStore.TransferEvent.progress p.1 p.2) ++
        [.complete])).refreshCalls = 1 ∧
    (SftpStore.runUploadFolderEvents gw id ⟨s, true, 0⟩
      ((ps.map fun p => SftpStore.TransferEvent.progress p.1 p.2) ++
        [.complete])).refreshCalls = 1 ∧
    (SftpStore.runDownloadEvents id ⟨s, true, 0⟩
      ((ps.map fun p => SftpStore.TransferEvent.progress p.1 p.2) ++
        [.complete])).refreshCalls = 0 := by
  refine ⟨?_, ?_, ?_⟩
  · obtain ⟨h1, h2⟩ := runUploadEvents_progress_aux gw id ps ⟨s, true, 0⟩
    simp only [SftpStore.runUploadEvents] at h1 h2 ⊢
    rw [List.foldl_append, List.foldl_cons, List.foldl_nil]
    simp [SftpStore.uploadHandleEvent, h1, h2]
  · obtain ⟨h1, h2⟩ := runUploadFolderEvents_progress_aux gw id ps ⟨s, true, 0⟩
    simp only [SftpStore.runUploadFolderEvents] at h1 h2 ⊢
    rw [List.foldl_append, List.foldl_cons, List.foldl_nil]
    simp [SftpStore.uploadFolderHandleEvent, h1, h2]
  · obtain ⟨h1, h2⟩ := runDownloadEvents_progress_aux id ps ⟨s, true, 0⟩
    simp only [SftpStore.runDownloadEvents] at h1 h2 ⊢
    rw [List.foldl_append, List.foldl_cons, List.foldl_nil]
    simp [SftpStore.downloadHandleEvent, h1, h2]

end OpenTerm

namespace OpenTerm.TabsStore

open List

/-- Membership in the mapped ids of a JS-style `filter(t => t.id !== x)`:
an id survives exactly when it was present and differs from the removed id. -/
lemma mem_map_filter_ne {α : Type} (f : α → String) (tabId a : String)
    (l : List α) :
    a ∈ (l.filter (fun t => f t != tabId)).map f ↔ a ∈ l.map f ∧ a ≠ tabId := by
  simp only [List.mem_map, List.mem_filter, bne_iff_ne]
  constructor
  · rintro ⟨x, ⟨hx, hne⟩, rfl⟩
    exact ⟨⟨x, hx, rfl⟩, hne⟩
  · rintro ⟨⟨x, hx, rfl⟩, hne⟩
    exact ⟨x, ⟨hx, hne⟩, rfl⟩

/-- Appending a terminal tab built by `createTerminal` permutes the id
multiset by consing the new id. -/
lemma allIds_createTerminal (si : SessionInfo) (s : TerminalState) :
    allIds (createTerminal si s).1 ~ si.id :: allIds s := by
  simp only [allIds, createTerminal, List.map_append, List.map_cons, List.map_nil]
  calc (s.tabs.map TerminalTab.id ++ [si.id]) ++ s.ftpTabs.map FtpTab.id ++
        s.sftpTabs.map SftpTab.id ++ s.vncTabs.map VncTab.id ++
        s.rdpTabs.map RdpTab.id
      = s.tabs.map TerminalTab.id ++ si.id ::
          (s.ftpTabs.map FtpTab.id ++ (s.sftpTabs.map SftpTab.id ++
            (s.vncTabs.map VncTab.id ++ s.rdpTabs.map RdpTab.id))) := by
        simp [List.append_assoc]
    _ ~ si.id :: (s.tabs.map TerminalTab.id ++
          (s.ftpTabs.map FtpTab.id ++ (s.sftpTabs.map SftpTab.id ++
            (s.vncTabs.map VncTab.id ++ s.rdpTabs.map RdpTab.id)))) :=
        List.perm_middle
    _ = si.id :: allIds s := by simp [allIds, List.append_assoc]

/-- `addFtpTab` permutes the id multiset by consing the new id. -/
lemma allIds_addFtpTab (t : FtpTab) (s : TerminalState) :
    allIds (addFtpTab t s) ~ t.id :: allIds s := by
  simp only [allIds, addFtpTab, List.map_append, List.map_cons, List.map_nil]
  calc s.tabs.map TerminalTab.id ++ (s.ftpTabs.map FtpTab.id ++ [t.id]) ++
        s.sftpTabs.map SftpTab.id ++ s.vncTabs.map VncTab.id ++
        s.rdpTabs.map RdpTab.id
      = (s.tabs.map TerminalTab.id ++ s.ftpTabs.map FtpTab.id) ++ t.id ::
          (s.sftpTabs.map SftpTab.id ++ (s.vncTabs.map VncTab.id ++
            s.rdpTabs.map RdpTab.id)) := by
        simp [List.append_assoc]
    _ ~ t.id :: ((s.tabs.map TerminalTab.id ++ s.ftpTabs.map FtpTab.id) ++
          (s.sftpTabs.map SftpTab.id ++ (s.vncTabs.map VncTab.id ++
            s.rdpTabs.map RdpTab.id))) := List.perm_middle
    _ = t.id :: allIds s := by simp [allIds, List.append_assoc]

/-- `addSftpTab` permutes the id multiset by consing the new id. -/
lemma allIds_addSftpTab (t : SftpTab) (s : TerminalState) :
    allIds (addSftpTab t s) ~ t.id :: allIds s := by
  simp only [allIds, addSftpTab, List.map_append, List.map_cons, List.map_nil]
  calc s.tabs.map TerminalTab.id ++ s.ftpTabs.map FtpTab.id ++
        (s.sftpTabs.map SftpTab.id ++ [t.id]) ++ s.vncTabs.map VncTab.id ++
        s.rdpTabs.map RdpTab.id
      = (s.tabs.map TerminalTab.id ++ (s.ftpTabs.map FtpTab.id ++
          s.sftpTabs.map SftpTab.id)) ++ t.id ::
          (s.vncTabs.map VncTab.id ++ s.rdpTabs.map RdpTab.id) := by
        simp [List.append_assoc]
    _ ~ t.id :: ((s.tabs.map TerminalTab.id ++ (s.ftpTabs.map FtpTab.id ++
          s.sftpTabs.map SftpTab.id)) ++
          (s.vncTabs.map VncTab.id ++ s.rdpTabs.map RdpTab.id)) :=
        List.perm_middle
    _ = t.id :: allIds s := by simp [allIds, List.append_assoc]

/-- `addVncTab` permutes the id multiset by consing the new id. -/
lemma allIds_addVncTab (t : VncTab) (s : TerminalState) :
    allIds (addVncTab t s) ~ t.id :: allIds s := by
  simp only [allIds, addVncTab, List.map_append, List.map_cons, List.map_nil]
  calc s.tabs.map TerminalTab.id ++ s.ftpTabs.map FtpTab.id ++
        s.sftpTabs.map SftpTab.id ++ (s.vncTabs.map VncTab.id ++ [t.id]) ++
        s.rdpTabs.map RdpTab.id
      = (s.tabs.map TerminalTab.id ++ (s.ftpTabs.map FtpTab.id ++
          (s.sftpTabs.map SftpTab.id ++ s.vncTabs.map VncTab.id))) ++ t.id ::
          s.rdpTabs.map RdpTab.id := by
        simp [List.append_assoc]
    _ ~ t.id :: ((s.tabs.map TerminalTab.id ++ (s.ftpTabs.map FtpTab.id ++
          (s.sftpTabs.map SftpTab.id ++ s.vncTabs.map VncTab.id))) ++
          s.rdpTabs.map RdpTab.id) := List.perm_middle
    _ = t.id :: allIds s := by simp [allIds, List.append_assoc]

/-- `addRdpTab` permutes the id multiset by consing the new id. -/
lemma allIds_addRdpTab (t : RdpTab) (s : TerminalState) :
    allIds (addRdpTab t s) ~ t.id :: allIds s := by
  simp only [allIds, addRdpTab, List.map_append, List.map_cons, List.map_nil]
  calc s.tabs.map TerminalTab.id ++ s.ftpTabs.map FtpTab.id ++
        s.sftpTabs.map SftpTab.id ++ s.vncTabs.map VncTab.id ++
        (s.rdpTabs.map RdpTab.id ++ [t.id])
      = (s.tabs.map TerminalTab.id ++ (s.ftpTabs.map FtpTab.id ++
          (s.sftpTabs.map SftpTab.id ++ (s.vncTabs.map VncTab.id ++
            s.rdpTabs.map RdpTab.id)))) ++ [t.id] := by
        simp [List.append_assoc]
    _ ~ t.id :: (s.tabs.map TerminalTab.id ++ (s.ftpTabs.map FtpTab.id ++
          (s.sftpTabs.map SftpTab.id ++ (s.vncTabs.map VncTab.id ++
            s.rdpTabs.map RdpTab.id)))) := List.perm_append_singleton _ _
    _ = t.id :: allIds s := by simp [allIds, List.append_assoc]

/-- Preservation of the strengthened invariant by any append-and-activate
operation, given the fresh-id precondition. -/
lemma Inv_of_cons_perm {s' s : TerminalState} {x : String}
    (hperm : allIds s' ~ x :: allIds s) (hact : s'.activeTabId = some x)
    (hInv : RegistryInv s) (hfresh : x ∉ allIds s) : RegistryInv s' := by
  refine ⟨hperm.nodup_iff.mpr (List.nodup_cons.mpr ⟨hfresh, hInv.1⟩), ?_⟩
  intro id hid
  rw [hact] at hid
  obtain rfl : x = id := Option.some.inj hid
  exact hperm.mem_iff.mpr (List.mem_cons_self _ _)

end OpenTerm.TabsStore

namespace OpenTerm.TabsStore

open List

/-- `closeFtpTab` preserves the strengthened invariant (no extra
precondition: removal only shrinks the id multiset, and the fallback only
ever selects the id of a record that is still present). -/
lemma Inv_closeFtpTab (tabId : String) (s : TerminalState) (hInv : RegistryInv s) :
    RegistryInv (closeFtpTab tabId s) := by
  obtain ⟨hnd, hmem⟩ := hInv
  have hsub : allIds (closeFtpTab tabId s) <+ allIds s := by
    simp only [allIds, closeFtpTab]
    exact ((((List.Sublist.refl _).append
      ((List.filter_sublist _).map _)).append (List.Sublist.refl _)).append
      (List.Sublist.refl _)).append (List.Sublist.refl _)
  refine ⟨hsub.nodup hnd, ?_⟩
  intro id hid
  by_cases hact : s.activeTabId = some tabId
  · simp only [closeFtpTab, hact, if_true, eq_self_iff_true] at hid
    simp only [allIds, closeFtpTab, List.mem_append]
    split at hid
    · rcases Option.map_eq_some'.mp hid with ⟨x, hx, rfl⟩
      exact Or.inl (Or.inl (Or.inl (Or.inr
        (List.mem_map_of_mem _ (jsIndex_mem hx)))))
    · split at hid
      · rcases Option.map_eq_some'.mp hid with ⟨x, hx, rfl⟩
        exact Or.inl (Or.inl (Or.inr
          (List.mem_map_of_mem _ (List.getElem?_mem hx))))
      · split at hid
        · rcases Option.map_eq_some'.mp hid with ⟨x, hx, rfl⟩
          exact Or.inl (Or.inr (List.mem_map_of_mem _ (List.getElem?_mem hx)))
        · split at hid
          · rcases Option.map_eq_some'.mp hid with ⟨x, hx, rfl⟩
            exact Or.inr (List.mem_map_of_mem _ (List.getElem?_mem hx))
          · exact absurd hid (by simp)
  · have hid' : s.activeTabId = some id := by
      simpa [closeFtpTab, hact] using hid
    have hne : id ≠ tabId := by
      intro h
      subst h
      exact hact hid'
    have hm := hmem id hid'
    simp only [allIds, List.mem_append] at hm
    simp only [allIds, closeFtpTab, List.mem_append]
    rcases hm with ((((h | h) | h) | h) | h)
    · exact Or.inl (Or.inl (Or.inl (Or.inl h)))
    · exact Or.inl (Or.inl (Or.inl (Or.inr
        ((mem_map_filter_ne FtpTab.id tabId id s.ftpTabs).mpr ⟨h, hne⟩))))
    · exact Or.inl (Or.inl (Or.inr h))
    · exact Or.inl (Or.inr h)
    · exact Or.inr h

end OpenTerm.TabsStore

namespace OpenTerm.TabsStore

open List

/-- `closeSftpTab` preserves the strengthened invariant. -/
lemma Inv_closeSftpTab (tabId : String) (s : TerminalState) (hInv : RegistryInv s) :
    RegistryInv (closeSftpTab tabId s) := by
  obtain ⟨hnd, hmem⟩ := hInv
  have hsub : allIds (closeSftpTab tabId s) <+ allIds s := by
    simp only [allIds, closeSftpTab]
    exact ((((List.Sublist.refl _).append (List.Sublist.refl _)).append
      ((List.filter_sublist _).map _)).append
      (List.Sublist.refl _)).append (List.Sublist.refl _)
  refine ⟨hsub.nodup hnd, ?_⟩
  intro id hid
  by_cases hact : s.activeTabId = some tabId
  · simp only [closeSftpTab, hact, if_true, eq_self_iff_true] at hid
    simp only [allIds, closeSftpTab, List.mem_append]
    split at hid
    · rcases Option.map_eq_some'.mp hid with ⟨x, hx, rfl⟩
      exact Or.inl (Or.inl (Or.inr (List.mem_map_of_mem _ (jsIndex_mem hx))))
    · split at hid
      · rcases Option.map_eq_some'.mp hid with ⟨x, hx, rfl⟩
        exact Or.inl (Or.inl (Or.inl (Or.inl
          (List.mem_map_of_mem _ (List.getElem?_mem hx)))))
      · split at hid
        · rcases Option.map_eq_some'.mp hid with ⟨x, hx, rfl⟩
          exact Or.inl (Or.inl (Or.inl (Or.inr
            (List.mem_map_of_mem _ (List.getElem?_mem hx)))))
        · split at hid
          · rcases Option.map_eq_some'.mp hid with ⟨x, hx, rfl⟩
            exact Or.inl (Or.inr (List.mem_map_of_mem _ (List.getElem?_mem hx)))
          · split at hid
            · rcases Option.map_eq_some'.mp hid with ⟨x, hx, rfl⟩
              exact Or.inr (List.mem_map_of_mem _ (List.getElem?_mem hx))
            · exact absurd hid (by simp)
  · have hid' : s.activeTabId = some id := by
      simpa [closeSftpTab, hact] using hid
    have hne : id ≠ tabId := by
      intro h
      subst h
      exact hact hid'
    have hm := hmem id hid'
    simp only [allIds, List.mem_append] at hm
    simp only [allIds, closeSftpTab, List.mem_append]
    rcases hm with ((((h | h) | h) | h) | h)
    · exact Or.inl (Or.inl (Or.inl (Or.inl h)))
    · exact Or.inl (Or.inl (Or.inl (Or.inr h)))
    · exact Or.inl (Or.inl (Or.inr
        ((mem_map_filter_ne SftpTab.id tabId id s.sftpTabs).mpr ⟨h, hne⟩)))
    · exact Or.inl (Or.inr h)
    · exact Or.inr h

/-- `closeVncTab` preserves the strengthened invariant. -/
lemma Inv_closeVncTab (tabId : String) (s : TerminalState) (hInv : RegistryInv s) :
    RegistryInv (closeVncTab tabId s) := by
  obtain ⟨hnd, hmem⟩ := hInv
  have hsub : allIds (closeVncTab tabId s) <+ allIds s := by
    simp only [allIds, closeVncTab]
    exact ((((List.Sublist.refl _).append (List.Sublist.refl _)).append
      (List.Sublist.refl _)).append
      ((List.filter_sublist _).map _)).append (List.Sublist.refl _)
  refine ⟨hsub.nodup hnd, ?_⟩
  intro id hid
  by_cases hact : s.activeTabId = some tabId
  · simp only [closeVncTab, hact, if_true, eq_self_iff_true] at hid
    simp only [allIds, closeVncTab, List.mem_append]
    split at hid
    · rcases Option.map_eq_some'.mp hid with ⟨x, hx, rfl⟩
      exact Or.inl (Or.inr (List.mem_map_of_mem _ (jsIndex_mem hx)))
    · split at hid
      · rcases Option.map_eq_some'.mp hid with ⟨x, hx, rfl⟩
        exact Or.inl (Or.inl (Or.inl (Or.inl
          (List.mem_map_of_mem _ (List.getElem?_mem hx)))))
      · split at hid
        · rcases Option.map_eq_some'.mp hid with ⟨x, hx, rfl⟩
          exact Or.inl (Or.inl (Or.inl (Or.inr
            (List.mem_map_of_mem _ (List.getElem?_mem hx)))))
        · split at hid
          · rcases Option.map_eq_some'.mp hid with ⟨x, hx, rfl⟩
            exact Or.inl (Or.inl (Or.inr
              (List.mem_map_of_mem _ (List.getElem?_mem hx))))
          · split at hid
            · rcases Option.map_eq_some'.mp hid with ⟨x, hx, rfl⟩
              exact Or.inr (List.mem_map_of_mem _ (List.getElem?_mem hx))
            · exact absurd hid (by simp)
  · have hid' : s.activeTabId = some id := by
      simpa [closeVncTab, hact] using hid
    have hne : id ≠ tabId := by
      intro h
      subst h
      exact hact hid'
    have hm := hmem id hid'
    simp only [allIds, List.mem_append] at hm
    simp only [allIds, closeVncTab, List.mem_append]
    rcases hm with ((((h | h) | h) | h) | h)
    · exact Or.inl (Or.inl (Or.inl (Or.inl h)))
    · exact Or.inl (Or.inl (Or.inl (Or.inr h)))
    · exact Or.inl (Or.inl (Or.inr h))
    · exact Or.inl (Or.inr
        ((mem_map_filter_ne VncTab.id tabId id s.vncTabs).mpr ⟨h, hne⟩))
    · exact Or.inr h

/-- `closeRdpTab` preserves the strengthened invariant. -/
lemma Inv_closeRdpTab (tabId : String) (s : TerminalState) (hInv : RegistryInv s) :
    RegistryInv (closeRdpTab tabId s) := by
  obtain ⟨hnd, hmem⟩ := hInv
  have hsub : allIds (closeRdpTab tabId s) <+ allIds s := by
    simp only [allIds, closeRdpTab]
    exact ((((List.Sublist.refl _).append (List.Sublist.refl _)).append
      (List.Sublist.refl _)).append (List.Sublist.refl _)).append
      ((List.filter_sublist _).map _)
  refine ⟨hsub.nodup hnd, ?_⟩
  intro id hid
  by_cases hact : s.activeTabId = some tabId
  · simp only [closeRdpTab, hact, if_true, eq_self_iff_true] at hid
    simp only [allIds, closeRdpTab, List.mem_append]
    split at hid
    · rcases Option.map_eq_some'.mp hid with ⟨x, hx, rfl⟩
      exact Or.inr (List.mem_map_of_mem _ (jsIndex_mem hx))
    · split at hid
      · rcases Option.map_eq_some'.mp hid with ⟨x, hx, rfl⟩
        exact Or.inl (Or.inl (Or.inl (Or.inl
          (List.mem_map_of_mem _ (List.getElem?_mem hx)))))
      · split at hid
        · rcases Option.map_eq_some'.mp hid with ⟨x, hx, rfl⟩
          exact Or.inl (Or.inl (Or.inl (Or.inr
            (List.mem_map_of_mem _ (List.getElem?_mem hx)))))
        · split at hid
          · rcases Option.map_eq_some'.mp hid with ⟨x, hx, rfl⟩
            exact Or.inl (Or.inl (Or.inr
              (List.mem_map_of_mem _ (List.getElem?_mem hx))))
          · split at hid
            · rcases Option.map_eq_some'.mp hid with ⟨x, hx, rfl⟩
              exact Or.inl (Or.inr (List.mem_map_of_mem _ (List.getElem?_mem hx)))
            · exact absurd hid (by simp)
  · have hid' : s.activeTabId = some id := by
      simpa [closeRdpTab, hact] using hid
    have hne : id ≠ tabId := by
      intro h
      subst h
      exact hact hid'
    have hm := hmem id hid'
    simp only [allIds, List.mem_append] at hm
    simp only [allIds, closeRdpTab, List.mem_append]
    rcases hm with ((((h | h) | h) | h) | h)
    · exact Or.inl (Or.inl (Or.inl (Or.inl h)))
    · exact Or.inl (Or.inl (Or.inl (Or.inr h)))
    · exact Or.inl (Or.inl (Or.inr h))
    · exact Or.inl (Or.inr h)
    · exact Or.inr
        ((mem_map_filter_ne RdpTab.id tabId id s.rdpTabs).mpr ⟨h, hne⟩)

/-- `closeTerminal` preserves the strengthened invariant. -/
lemma Inv_closeTerminal (tabId : String) (s : TerminalState) (hInv : RegistryInv s) :
    RegistryInv (closeTerminal tabId s) := by
  obtain ⟨hnd, hmem⟩ := hInv
  have hsub : allIds (closeTerminal tabId s) <+ allIds s := by
    simp only [allIds, closeTerminal]
    exact (((((List.filter_sublist _).map _).append
      (List.Sublist.refl _)).append (List.Sublist.refl _)).append
      (List.Sublist.refl _)).append (List.Sublist.refl _)
  refine ⟨hsub.nodup hnd, ?_⟩
  intro id hid
  by_cases hact : s.activeTabId = some tabId
  · simp only [closeTerminal, hact, if_true, eq_self_iff_true] at hid
    simp only [allIds, closeTerminal, List.mem_append]
    split at hid
    · rcases Option.map_eq_some'.mp hid with ⟨x, hx, rfl⟩
      exact Or.inl (Or.inl (Or.inl (Or.inl
        (List.mem_map_of_mem _ (jsIndex_mem hx)))))
    · exact absurd hid (by simp)
  · have hid' : s.activeTabId = some id := by
      simpa [closeTerminal, hact] using hid
    have hne : id ≠ tabId := by
      intro h
      subst h
      exact hact hid'
    have hm := hmem id hid'
    simp only [allIds, List.mem_append] at hm
    simp only [allIds, closeTerminal, List.mem_append]
    rcases hm with ((((h | h) | h) | h) | h)
    · exact Or.inl (Or.inl (Or.inl (Or.inl
        ((mem_map_filter_ne TerminalTab.id tabId id s.tabs).mpr ⟨h, hne⟩))))
    · exact Or.inl (Or.inl (Or.inl (Or.inr h)))
    · exact Or.inl (Or.inl (Or.inr h))
    · exact Or.inl (Or.inr h)
    · exact Or.inr h

end OpenTerm.TabsStore

namespace OpenTerm.TabsStore

/-- `setActiveTab` preserves the strengthened invariant provided the id
belongs to some record. -/
lemma Inv_setActiveTab (tabId : String) (s : TerminalState) (hInv : RegistryInv s)
    (hmem : tabId ∈ allIds s) : RegistryInv (setActiveTab tabId s) := by
  refine ⟨?_, ?_⟩
  · simpa [allIds, setActiveTab] using hInv.1
  · intro id hid
    simp only [setActiveTab] at hid
    obtain rfl : tabId = id := Option.some.inj hid
    simpa [allIds, setActiveTab] using hmem

/-- Under the strengthened invariant, the active id — when set — counts
exactly one record across the five collections combined. -/
lemma claimInv_of_Inv (s : TerminalState) (h : RegistryInv s) : ClaimInv s := by
  cases hact : s.activeTabId with
  | none => exact Or.inl hact
  | some id =>
    refine Or.inr ⟨id, hact, ?_⟩
    exact List.count_eq_one_of_mem h.1 (h.2 id hact)

end OpenTerm.TabsStore

namespace OpenTerm

open TabsStore

/-- C2, counterexample: the initial (empty) workspace satisfies the claimed
uniqueness property, but `setActiveTab` performs no existence check, so one
registry operation from that reachable state produces an active id that
matches no record at all — refuting unconditional preservation. -/
theorem c2_counterexample :
    ClaimInv initialTerminalState ∧
      ¬ ClaimInv (setActiveTab "ghost" initialTerminalState) := by
  constructor
  · exact Or.inl rfl
  · rintro (h | ⟨id, hid, hcount⟩)
    · simp [setActiveTab, initialTerminalState] at h
    · have : id = "ghost" := by
        have h2 : some "ghost" = some id := by
          simpa [setActiveTab, initialTerminalState] using hid
        exact (Option.some.inj h2).symm
      subst this
      simp [allIds, setActiveTab, initialTerminalState] at hcount

/-- C2 (amended): restrict the operations to their intended arguments —
every add is invoked with an id not already present in any of the five
collections, and set-active only with the id of some existing record. Then
every tab-registry operation (the five adds, the five closes with their
fallback, and set-active) preserves the strengthened invariant "all record
ids are pairwise distinct across the five collections and the active id,
when set, belongs to a record", and that invariant entails the claimed
uniqueness property: the active tab identifier is `null` or equals the id
of exactly one record across the five collections combined. -/
theorem c2_amended :
    (∀ s, RegistryInv s → ClaimInv s) ∧
    (∀ s si, RegistryInv s → si.id ∉ allIds s → RegistryInv (createTerminal si s).1) ∧
    (∀ s t, RegistryInv s → t.id ∉ allIds s → RegistryInv (addFtpTab t s)) ∧
    (∀ s t, RegistryInv s → t.id ∉ allIds s → RegistryInv (addSftpTab t s)) ∧
    (∀ s t, RegistryInv s → t.id ∉ allIds s → RegistryInv (addVncTab t s)) ∧
    (∀ s t, RegistryInv s → t.id ∉ allIds s → RegistryInv (addRdpTab t s)) ∧
    (∀ s tabId, RegistryInv s → tabId ∈ allIds s → RegistryInv (setActiveTab tabId s)) ∧
    (∀ s tabId, RegistryInv s → RegistryInv (closeTerminal tabId s)) ∧
    (∀ s tabId, RegistryInv s → RegistryInv (closeFtpTab tabId s)) ∧
    (∀ s tabId, RegistryInv s → RegistryInv (closeSftpTab tabId s)) ∧
    (∀ s tabId, RegistryInv s → RegistryInv (closeVncTab tabId s)) ∧
    (∀ s tabId, RegistryInv s → RegistryInv (closeRdpTab tabId s)) := by
  refine ⟨claimInv_of_Inv, ?_, ?_, ?_, ?_, ?_, ?_, ?_, ?_, ?_, ?_, ?_⟩
  · exact fun s si hInv hfresh =>
      Inv_of_cons_perm (allIds_createTerminal si s) rfl hInv hfresh
  · exact fun s t hInv hfresh =>
      Inv_of_cons_perm (allIds_addFtpTab t s) rfl hInv hfresh
  · exact fun s t hInv hfresh =>
      Inv_of_cons_perm (allIds_addSftpTab t s) rfl hInv hfresh
  · exact fun s t hInv hfresh =>
      Inv_of_cons_perm (allIds_addVncTab t s) rfl hInv hfresh
  · exact fun s t hInv hfresh =>
      Inv_of_cons_perm (allIds_addRdpTab t s) rfl hInv hfresh
  · exact fun s tabId hInv hmem => Inv_setActiveTab tabId s hInv hmem
  · exact fun s tabId hInv => Inv_closeTerminal tabId s hInv
  · exact fun s tabId hInv => Inv_closeFtpTab tabId s hInv
  · exact fun s tabId hInv => Inv_closeSftpTab tabId s hInv
  · exact fun s tabId hInv => Inv_closeVncTab tabId s hInv
  · exact fun s tabId hInv => Inv_closeRdpTab tabId s hInv

/-- C2 (amended), witness: starting from the empty workspace, adding an Ftp
tab with a fresh id keeps the invariant, and with it the claimed
uniqueness property of the resulting state. -/
theorem c2_amended_witness :
    ClaimInv (addFtpTab (sampleFtpTab "f1") initialTerminalState) := by
  have hInv0 : RegistryInv initialTerminalState := by
    constructor
    · simp [allIds, initialTerminalState]
    · intro id hid
      simp [initialTerminalState] at hid
  have hInv1 := c2_amended.2.2.1 initialTerminalState (sampleFtpTab "f1") hInv0
    (by simp [allIds, initialTerminalState])
  exact c2_amended.1 _ hInv1

end OpenTerm

namespace OpenTerm.FileTree

open List

/-- The character-list comparison is reflexive at zero. -/
lemma cmpCharList_refl : ∀ x : List Char, cmpCharList x x = 0 := by
  intro x
  induction x with
  | nil => rfl
  | cons c cs ih => simp [cmpCharList, lt_irrefl, ih]

/-- Swapping the arguments negates the character-list comparison. -/
lemma cmpCharList_swap : ∀ x y : List Char, cmpCharList y x = -cmpCharList x y := by
  intro x
  induction x with
  | nil => intro y; cases y <;> simp [cmpCharList]
  | cons c cs ih =>
    intro y
    cases y with
    | nil => simp [cmpCharList]
    | cons d ds =>
      simp only [cmpCharList]
      rcases lt_trichotomy c d with h | h | h
      · simp [h, lt_asymm h]
      · subst h
        simp [lt_irrefl, ih ds]
      · simp [h, lt_asymm h]

/-- The non-positive half of the character-list comparison is transitive. -/
lemma cmpCharList_trans : ∀ x y z : List Char,
    cmpCharList x y ≤ 0 → cmpCharList y z ≤ 0 → cmpCharList x z ≤ 0 := by
  intro x
  induction x with
  | nil => intro y z _ _; cases z <;> simp [cmpCharList]
  | cons c cs ih =>
    intro y z h1 h2
    cases y with
    | nil => simp [cmpCharList] at h1
    | cons d ds =>
      cases z with
      | nil => simp [cmpCharList] at h2
      | cons e es =>
        simp only [cmpCharList] at h1 h2 ⊢
        rcases lt_trichotomy c d with hcd | hcd | hcd
        · rcases lt_trichotomy d e with hde | hde | hde
          · simp [lt_trans hcd hde]
          · subst hde
            simp [hcd]
          · simp [hde, lt_asymm hde] at h2
        · subst hcd
          rcases lt_trichotomy c e with hce | hce | hce
          · simp [hce]
          · subst hce
            simp only [lt_irrefl, if_false] at h1 h2 ⊢
            exact ih _ _ h1 h2
          · simp [hce, lt_asymm hce] at h2
        · simp [hcd, lt_asymm hcd] at h1

/-- Swapping the arguments negates the `FileTree` comparator. -/
lemma fileCmp_swap (a b : FileEntry) : fileCmp b a = -fileCmp a b := by
  unfold fileCmp localeCompare
  by_cases ha : a.file_type = FileType.Directory <;>
    by_cases hb : b.file_type = FileType.Directory
  · simpa [ha, hb] using cmpCharList_swap a.name.data b.name.data
  · simp [ha, hb]
  · simp [ha, hb]
  · simpa [ha, hb] using cmpCharList_swap a.name.data b.name.data

/-- Totality of the comparator's non-positive half. -/
lemma fileCmp_total (a b : FileEntry) (h : ¬ fileCmp a b ≤ 0) :
    fileCmp b a ≤ 0 := by
  rw [fileCmp_swap]
  omega

/-- Transitivity of the comparator's non-positive half. -/
lemma fileCmp_trans (a b c : FileEntry) (h1 : fileCmp a b ≤ 0)
    (h2 : fileCmp b c ≤ 0) : fileCmp a c ≤ 0 := by
  unfold fileCmp localeCompare at h1 h2 ⊢
  by_cases hA : a.file_type = FileType.Directory <;>
    by_cases hB : b.file_type = FileType.Directory <;>
      by_cases hC : c.file_type = FileType.Directory
  all_goals
    first
      | (simp only [hA, hB, hC] at h1 h2 ⊢
         simp at h1 h2 ⊢
         exact cmpCharList_trans _ _ _ h1 h2)
      | simp_all

/-- Two entries in the same directory group with the same name compare
equal. -/
lemma fileCmp_eq_zero_of_same (a b : FileEntry)
    (hd : (a.file_type = FileType.Directory) ↔ (b.file_type = FileType.Directory))
    (hn : a.name = b.name) : fileCmp a b = 0 := by
  unfold fileCmp localeCompare
  by_cases ha : a.file_type = FileType.Directory
  · have hb := hd.mp ha
    simp [ha, hb, hn, cmpCharList_refl]
  · have hb : ¬ b.file_type = FileType.Directory := fun h => ha (hd.mpr h)
    simp [ha, hb, hn, cmpCharList_refl]

/-- A comparator-non-positive entry before a non-directory cannot be
followed by a directory. -/
lemma fileCmp_le_zero_dir (a b : FileEntry) (h : fileCmp a b ≤ 0)
    (ha : a.file_type ≠ FileType.Directory) :
    b.file_type ≠ FileType.Directory := by
  intro hb
  unfold fileCmp at h
  rw [if_neg (fun hcon => ha hcon.1), if_pos ⟨ha, hb⟩] at h
  omega

/-- Within one directory group, comparator order is name order. -/
lemma fileCmp_le_zero_name (a b : FileEntry) (h : fileCmp a b ≤ 0)
    (hiff : a.file_type = FileType.Directory ↔ b.file_type = FileType.Directory) :
    localeCompare a.name b.name ≤ 0 := by
  unfold fileCmp at h
  by_cases ha : a.file_type = FileType.Directory
  · have hb := hiff.mp ha
    simpa [ha, hb] using h
  · have hb : ¬ b.file_type = FileType.Directory := fun hbb => ha (hiff.mpr hbb)
    simpa [ha, hb] using h

/-- Stable insertion permutes by consing the new element. -/
lemma insertSorted_perm (cmp : FileEntry → FileEntry → Int) (x : FileEntry) :
    ∀ l, insertSorted cmp x l ~ x :: l := by
  intro l
  induction l with
  | nil => exact Perm.refl _
  | cons y ys ih =>
    unfold insertSorted
    split
    · exact Perm.refl _
    · exact (Perm.cons y ih).trans (Perm.swap x y ys)

/-- The stable sort is a permutation of its input. -/
lemma stableSort_perm (cmp : FileEntry → FileEntry → Int) :
    ∀ l, stableSort cmp l ~ l := by
  intro l
  induction l with
  | nil => exact Perm.refl _
  | cons x xs ih =>
    exact (insertSorted_perm cmp x (stableSort cmp xs)).trans (Perm.cons x ih)

/-- Inserting into a comparator-sorted list keeps it sorted. -/
lemma insertSorted_pairwise (x : FileEntry) (l : List FileEntry)
    (hl : l.Pairwise (fun a b => fileCmp a b ≤ 0)) :
    (insertSorted fileCmp x l).Pairwise (fun a b => fileCmp a b ≤ 0) := by
  induction l with
  | nil => simp [insertSorted]
  | cons y ys ih =>
    rw [List.pairwise_cons] at hl
    obtain ⟨hy, hys⟩ := hl
    unfold insertSorted
    split
    · next hxy =>
      rw [List.pairwise_cons]
      refine ⟨?_, List.pairwise_cons.mpr ⟨hy, hys⟩⟩
      intro z hz
      rcases List.mem_cons.mp hz with rfl | hz'
      · exact hxy
      · exact fileCmp_trans x y z hxy (hy z hz')
    · next hxy =>
      rw [List.pairwise_cons]
      refine ⟨?_, ih hys⟩
      intro z hz
      have hz2 := (insertSorted_perm fileCmp x ys).mem_iff.mp hz
      rcases List.mem_cons.mp hz2 with hzx | hz'
      · rw [hzx]
        exact fileCmp_total x y hxy
      · exact hy z hz'

/-- The stable sort output is comparator-sorted. -/
lemma stableSort_pairwise : ∀ l : List FileEntry,
    (stableSort fileCmp l).Pairwise (fun a b => fileCmp a b ≤ 0) := by
  intro l
  induction l with
  | nil => simp [stableSort]
  | cons x xs ih => exact insertSorted_pairwise x _ ih

/-- Stability of insertion: restricted to one comparator-equal class, the
insertion either prepends the new element (when it belongs to the class) or
leaves the class's subsequence untouched. -/
lemma insertSorted_filter (q : FileEntry → Bool) (x : FileEntry)
    (hq : ∀ y, q x = true → q y = true → fileCmp x y = 0) :
    ∀ l : List FileEntry,
      (insertSorted fileCmp x l).filter q =
        if q x then x :: l.filter q else l.filter q := by
  intro l
  induction l with
  | nil => by_cases h : q x <;> simp [insertSorted, h]
  | cons y ys ih =>
    unfold insertSorted
    split
    · next hxy =>
      by_cases h : q x <;> simp [List.filter_cons, h]
    · next hxy =>
      by_cases h : q x
      · have hy : q y = false := by
          by_contra hyy
          have h2 : q y = true := by simpa using hyy
          exact hxy (le_of_eq (hq y h h2))
        simp [List.filter_cons, hy, ih, h]
      · simp [List.filter_cons, ih, h]

/-- Stability of the sort: every comparator-equal class keeps its original
relative order (its filtered subsequence is unchanged). -/
lemma stableSort_filter (q : FileEntry → Bool)
    (hq : ∀ a b, q a = true → q b = true → fileCmp a b = 0) :
    ∀ l : List FileEntry, (stableSort fileCmp l).filter q = l.filter q := by
  intro l
  induction l with
  | nil => rfl
  | cons x xs ih =>
    show (insertSorted fileCmp x (stableSort fileCmp xs)).filter q = _
    rw [insertSorted_filter q x (fun y => hq x y), ih]
    by_cases h : q x <;> simp [List.filter_cons, h]

end OpenTerm.FileTree

namespace OpenTerm

open List

/-- C9: the presented order is a permutation of the input produced by a
stable deterministic sort (`stableSort` models ECMAScript's stable
`Array.prototype.sort`): the output is comparator-sorted; consequently no
directory ever follows a non-directory, and within one directory group the
names are in non-decreasing lexicographic (code-point) order — the model of
`localeCompare`, with which it agrees on single-case ASCII names; every
comparator-equal class (same group, same name) keeps its original relative
order; and on the spec's example `[b(File), A(Directory), a(File)]` the
presented order is `A`, `a`, `b`. -/
theorem c9_sorted_files (files : List FileEntry) :
    FileTree.sortedFiles files ~ files ∧
    (FileTree.sortedFiles files).Pairwise
      (fun a b => FileTree.fileCmp a b ≤ 0) ∧
    (∀ (i j : Nat) (hi : i < (FileTree.sortedFiles files).length)
        (hj : j < (FileTree.sortedFiles files).length), i < j →
      ((FileTree.sortedFiles files)[i].file_type ≠ FileType.Directory →
        (FileTree.sortedFiles files)[j].file_type ≠ FileType.Directory) ∧
      (((FileTree.sortedFiles files)[i].file_type = FileType.Directory ↔
          (FileTree.sortedFiles files)[j].file_type = FileType.Directory) →
        FileTree.localeCompare (FileTree.sortedFiles files)[i].name
          (FileTree.sortedFiles files)[j].name ≤ 0)) ∧
    (∀ (d : Bool) (n : String),
      (FileTree.sortedFiles files).filter
        (fun e => (decide (e.file_type = FileType.Directory) == d) &&
          (e.name == n)) =
      files.filter
        (fun e => (decide (e.file_type = FileType.Directory) == d) &&
          (e.name == n))) ∧
    (FileTree.sortedFiles
        [⟨"b", "b", .File, 0, none, none⟩, ⟨"A", "A", .Directory, 0, none, none⟩,
          ⟨"a", "a", .File, 0, none, none⟩]).map FileEntry.name =
      ["A", "a", "b"] := by
  refine ⟨FileTree.stableSort_perm _ files, FileTree.stableSort_pairwise files,
    ?_, ?_, by decide⟩
  · intro i j hi hj hij
    have hpw := FileTree.stableSort_pairwise files
    rw [List.pairwise_iff_getElem] at hpw
    have h := hpw i j hi hj hij
    exact ⟨fun ha => FileTree.fileCmp_le_zero_dir _ _ h ha,
      fun hiff => FileTree.fileCmp_le_zero_name _ _ h hiff⟩
  · intro d n
    apply FileTree.stableSort_filter
    intro a b ha hb
    simp only [Bool.and_eq_true, beq_iff_eq] at ha hb
    apply FileTree.fileCmp_eq_zero_of_same
    · rw [← decide_eq_decide]
      rw [ha.1, hb.1]
    · rw [ha.2, hb.2]

/-- C9, witness: in the sorted example listing, entry 1 (`a`, a file) is
followed by entry 2 (`b`, a file) in name order, by the ordering conjunct
of `c9_sorted_files` at indices 1 < 2. -/
theorem c9_sorted_files_witness :
    FileTree.localeCompare
      ((FileTree.sortedFiles
        [⟨"b", "b", .File, 0, none, none⟩, ⟨"A", "A", .Directory, 0, none, none⟩,
          ⟨"a", "a", .File, 0, none, none⟩]).get ⟨1, by decide⟩).name
      ((FileTree.sortedFiles
        [⟨"b", "b", .File, 0, none, none⟩, ⟨"A", "A", .Directory, 0, none, none⟩,
          ⟨"a", "a", .File, 0, none, none⟩]).get ⟨2, by decide⟩).name ≤ 0 := by
  have h := (c9_sorted_files
    [⟨"b", "b", .File, 0, none, none⟩, ⟨"A", "A", .Directory, 0, none, none⟩,
      ⟨"a", "a", .File, 0, none, none⟩]).2.2.1 1 2 (by decide) (by decide)
    (by decide)
  exact h.2 (by decide)

end OpenTerm
